import Mathlib

/-!
# go-delivery: location registry, asynchronous and synchronous delivery

A shallow embedding of package `delivery` (`delivery.go`, `sender.go`,
`receiver.go`, `errors.go`).

Modelling conventions.

* The three `sync.Map` fields of `defaultDeliverer` are finite maps keyed by the
  location string (`SyncMap`), with `Load`, `Store` and `LoadAndDelete`.
* A Go channel is a reference.  Channel objects live in `heap`, addressed by a
  natural number; `chanMap` stores addresses.  `nextChan` is the next unused
  address, bumped by every `make`.
* A `*defaultSender` / `*defaultReceiver` is identified by its `location`
  field: the registry admits one object per location and never removes it.
  The mutable receiver object (handler slot, buffer length) is the entry of
  `receiverMap`.
* In the sequential part every exported call runs atomically; a call either
  returns, panics, or blocks for ever when no other goroutine runs
  (`Outcome`).  For concurrent callers `NewSender` and `NewReceiver` are also
  given step by step, with their mutexes (`Thread`, `Race`); a call run alone
  through its steps is the sequential call (`Thread_steps_NewSender`,
  `Thread_steps_NewReceiver`).
* The `default:` branches of the type switches are dead: `chanMap` only ever
  receives `TransportChan` values and `receiverMap` only `*defaultReceiver`
  values, so the maps are typed and the branch has no counterpart.
* `make(chan, n)` has the range check of the runtime's `makechan` on a 64-bit
  platform (`makeChan`); inside that range allocation never runs out of memory.
-/

namespace Delivery

/-! ## Values, errors, outcomes -/

/-- Payloads: Go `interface{}` values, `nil` included. -/
inductive Value
  | nil
  | str (s : String)
  | int (n : Int)
  deriving DecidableEq, Repr

/-- Errors of the package.  The first four are the `fmt.Errorf` errors with
their location argument, the next one the unreachable "unknow type", then the
two sentinel variables of `errors.go`; `custom` is any error produced by host
code (options, handlers). -/
inductive Error
  | senderExists (location : String)
  | receiverExists (location : String)
  | noReceiver (location : String)
  | noSender (location : String)
  | unknowType
  | receiverBufferFulled
  | locationDeleted
  | custom (msg : String)
  deriving DecidableEq, Repr

/-- The sentinel `ErrReceiverBufferFulled` of `errors.go`. -/
def ErrReceiverBufferFulled : Error := Error.receiverBufferFulled

/-- The sentinel `ErrLocationDeleted` of `errors.go`. -/
def ErrLocationDeleted : Error := Error.locationDeleted

/-- How a call ends: it returns, it panics, or it blocks for ever. -/
inductive Outcome (α : Type)
  | returns (a : α)
  | panics
  | blocks
  deriving DecidableEq, Repr

/-! ## sync.Map -/

/-- A `sync.Map` keyed by location strings. -/
structure SyncMap (α : Type) where
  entries : String → Option α

namespace SyncMap

variable {α : Type}

/-- The zero value of `sync.Map`: no entries. -/
def empty : SyncMap α := ⟨fun _ => none⟩

/-- Go `Load`: the value and `ok`, as an option. -/
def Load (m : SyncMap α) (key : String) : Option α := m.entries key

/-- Go `Store`. -/
def Store (m : SyncMap α) (key : String) (value : α) : SyncMap α :=
  ⟨fun k => if k = key then some value else m.entries k⟩

/-- Go `LoadAndDelete`: the previous value (if any) and the map without the key. -/
def LoadAndDelete (m : SyncMap α) (key : String) : Option α × SyncMap α :=
  (m.entries key, ⟨fun k => if k = key then none else m.entries k⟩)

end SyncMap

/-! ## Channels -/

/-- A channel object: capacity, buffered values (head is the oldest), closed flag. -/
structure Chan where
  cap : Nat
  buf : List Value
  closed : Bool
  deriving DecidableEq, Repr

/-- The size in bytes of one `interface{}` channel element on a 64-bit platform. -/
def elemSize : Nat := 16

/-- The runtime constant `maxAlloc` on linux/amd64: 2^48. -/
def maxAlloc : Nat := 281474976710656

/-- The runtime constant `hchanSize` on a 64-bit platform (96 bytes up to
Go 1.22; later releases add one word, which moves the limit by one element). -/
def hchanSize : Nat := 96

/-- The sizes that pass the range check of the runtime's `makechan`: not
negative, and the buffer of `elemSize * size` bytes fits under
`maxAlloc - hchanSize`. -/
abbrev sizeInRange (size : Int) : Prop :=
  0 ≤ size ∧ elemSize * size.toNat ≤ maxAlloc - hchanSize

/-- Go `make(TransportChan, size)`.  The runtime's `makechan` panics
("makechan: size out of range", here `none`) when
`overflow || mem > maxAlloc-hchanSize || size < 0`, with `mem` the product of the
element size and `size`; the product is taken without wrap-around, which covers
`overflow`. -/
def makeChan (size : Int) : Option Chan :=
  if size < 0 ∨ maxAlloc - hchanSize < elemSize * size.toNat then none
  else some { cap := size.toNat, buf := [], closed := false }

/-! ## The data model -/

/-- The struct `defaultSender` (its `deliver` pointer is the state passed around). -/
structure defaultSender where
  location : String
  deriving DecidableEq, Repr

/-- The type `ReceiveHandle`: a Go func value, `none` being the nil func.  A
handler is host code that makes no Deliverer calls; it returns, panics or
blocks. -/
abbrev ReceiveHandle := Option (Value → Outcome (Value × Option Error))

/-- The struct `defaultReceiver`. -/
structure defaultReceiver where
  location : String
  handle : ReceiveHandle
  bufferLength : Int

/-- The struct `defaultDeliverer`, with the channel objects its `chanMap` refers to. -/
structure defaultDeliverer where
  senderMap : SyncMap defaultSender
  receiverMap : SyncMap defaultReceiver
  chanMap : SyncMap Nat
  heap : Nat → Chan
  nextChan : Nat

/-- The constant `defaultReceiveBufferLength`. -/
def defaultReceiveBufferLength : Int := 5

/-- The interface `SenderOption`: `SenderConfig` has no method, so `Apply` can
only inspect nothing and report an error or nil. -/
structure SenderOption where
  Apply : defaultSender → Option Error

/-- The interface `ReceiverOption`: through `ReceiverConfig` an `Apply` can only
call `SetBufferLength`, any number of times, and then report an error or nil. -/
structure ReceiverOption where
  calls : List Int
  result : Option Error

/-- The struct `ReceiveOption`. -/
structure ReceiveOption where
  BufferLength : Int

/-- The function `New`. -/
def New : defaultDeliverer :=
  { senderMap := SyncMap.empty
    receiverMap := SyncMap.empty
    chanMap := SyncMap.empty
    heap := fun _ => { cap := 0, buf := [], closed := false }
    nextChan := 0 }

/-- Overwrite the channel object at an address. -/
def setChan (heap : Nat → Chan) (ref : Nat) (ch : Chan) : Nat → Chan :=
  fun r => if r = ref then ch else heap r

/-! ## receiver.go -/

/-- The method `(*defaultReceiver).SetBufferLength` on a receiver object. -/
def defaultReceiver.SetBufferLength (d : defaultReceiver) (len : Int) : defaultReceiver :=
  { d with bufferLength := len }

/-- The method `Apply` of a `ReceiverOption` on the receiver under construction. -/
def ReceiverOption.Apply (option : ReceiverOption) (r : defaultReceiver) :
    defaultReceiver × Option Error :=
  (option.calls.foldl defaultReceiver.SetBufferLength r, option.result)

/-- The method `(*ReceiveOption).Apply`, as a `ReceiverOption`. -/
def ReceiveOption.toReceiverOption (option : ReceiveOption) : ReceiverOption :=
  { calls := [option.BufferLength], result := none }

/-- The option loop of `newDefaultReceiver`: stops at the first error. -/
def applyReceiverOptions (receiver : defaultReceiver) :
    List ReceiverOption → defaultReceiver × Option Error
  | [] => (receiver, none)
  | receiveOption :: rest =>
    match receiveOption.Apply receiver with
    | (_, some err) => (receiver, some err)
    | (receiver1, none) => applyReceiverOptions receiver1 rest

/-- The function `newDefaultReceiver`. -/
def newDefaultReceiver (deliver : defaultDeliverer) (location : String)
    (option : List ReceiverOption) :
    defaultDeliverer × Outcome (Option defaultReceiver × Option Error) :=
  let receiver : defaultReceiver :=
    { location := location, handle := none, bufferLength := defaultReceiveBufferLength }
  match applyReceiverOptions receiver option with
  | (_, some err) => (deliver, Outcome.returns (none, some err))
  | (receiver, none) =>
    match makeChan receiver.bufferLength with
    | none => (deliver, Outcome.panics)
    | some ch =>
      ({ deliver with
          heap := setChan deliver.heap deliver.nextChan ch
          nextChan := deliver.nextChan + 1
          chanMap := deliver.chanMap.Store location deliver.nextChan },
        Outcome.returns (some receiver, none))

/-- The method `(*defaultReceiver).toReceive`: `<-receiverChan`.  A buffered
value is dequeued (also from a closed channel); a closed and empty channel
yields the zero value `nil`; an open and empty channel blocks. -/
def defaultReceiver.toReceive (deliver : defaultDeliverer) (receiverChan : Nat) :
    defaultDeliverer × Outcome Value :=
  match (deliver.heap receiverChan).buf with
  | res :: rest =>
    ({ deliver with
        heap := setChan deliver.heap receiverChan { deliver.heap receiverChan with buf := rest } },
      Outcome.returns res)
  | [] =>
    if (deliver.heap receiverChan).closed then (deliver, Outcome.returns Value.nil)
    else (deliver, Outcome.blocks)

/-- The `case TransportChan:` arm of `ToReceive`, `return d.toReceive(ch), nil`:
the part of a `ToReceive` call that runs after the registry checks, on the
channel the call has loaded. -/
def defaultReceiver.ToReceive_TransportChan (deliver : defaultDeliverer) (ch : Nat) :
    defaultDeliverer × Outcome (Value × Option Error) :=
  match defaultReceiver.toReceive deliver ch with
  | (deliver1, Outcome.returns res) => (deliver1, Outcome.returns (res, none))
  | (deliver1, Outcome.panics) => (deliver1, Outcome.panics)
  | (deliver1, Outcome.blocks) => (deliver1, Outcome.blocks)

/-- The method `(*defaultReceiver).ToReceive` of the receiver at `location`. -/
def defaultReceiver.ToReceive (deliver : defaultDeliverer) (location : String) :
    defaultDeliverer × Outcome (Value × Option Error) :=
  match deliver.senderMap.Load location with
  | none => (deliver, Outcome.returns (Value.nil, some (Error.noSender location)))
  | some _ =>
    match deliver.chanMap.Load location with
    | none => (deliver, Outcome.returns (Value.nil, some ErrLocationDeleted))
    | some ch => defaultReceiver.ToReceive_TransportChan deliver ch

/-- The method `(*defaultReceiver).ToSyncReceive` of the receiver at `location`:
overwrites the handler slot of that receiver object. -/
def defaultReceiver.ToSyncReceive (deliver : defaultDeliverer) (location : String)
    (handle : ReceiveHandle) : defaultDeliverer :=
  match deliver.receiverMap.Load location with
  | none => deliver
  | some d => { deliver with receiverMap := deliver.receiverMap.Store location { d with handle := handle } }

/-- The method `(*defaultReceiver).syncProcess`: calling a nil func panics. -/
def defaultReceiver.syncProcess (d : defaultReceiver) (i : Value) :
    Outcome (Value × Option Error) :=
  match d.handle with
  | none => Outcome.panics
  | some handle => handle i

/-! ## sender.go -/

/-- The option loop of `newDefaultSender`. -/
def applySenderOptions (sender : defaultSender) : List SenderOption → Option Error
  | [] => none
  | option :: rest =>
    match option.Apply sender with
    | some err => some err
    | none => applySenderOptions sender rest

/-- The function `newDefaultSender`. -/
def newDefaultSender (location : String) (options : List SenderOption) :
    Option defaultSender × Option Error :=
  let sender : defaultSender := { location := location }
  match applySenderOptions sender options with
  | some err => (none, some err)
  | none => (some sender, none)

/-- The method `(*defaultSender).sendTo`: a `select` with a send case and a
`default`.  A send on a closed channel panics; otherwise the value is appended
when the buffer has room, else `ErrReceiverBufferFulled`. -/
def defaultSender.sendTo (deliver : defaultDeliverer) (senderChan : Nat) (data : Value) :
    defaultDeliverer × Outcome (Option Error) :=
  if (deliver.heap senderChan).closed then (deliver, Outcome.panics)
  else if (deliver.heap senderChan).buf.length < (deliver.heap senderChan).cap then
    ({ deliver with
        heap := setChan deliver.heap senderChan
          { deliver.heap senderChan with buf := (deliver.heap senderChan).buf ++ [data] } },
      Outcome.returns none)
  else (deliver, Outcome.returns (some ErrReceiverBufferFulled))

/-- The method `(*defaultSender).SendTo` of the sender at `location`. -/
def defaultSender.SendTo (deliver : defaultDeliverer) (location : String) (i : Value) :
    defaultDeliverer × Outcome (Option Error) :=
  match deliver.receiverMap.Load location with
  | none => (deliver, Outcome.returns (some (Error.noReceiver location)))
  | some _ =>
    match deliver.chanMap.Load location with
    | none => (deliver, Outcome.returns (some ErrLocationDeleted))
    | some ch => defaultSender.sendTo deliver ch i

/-- The method `(*defaultSender).SyncSendTo` of the sender at `location`. -/
def defaultSender.SyncSendTo (deliver : defaultDeliverer) (location : String) (i : Value) :
    Outcome (Value × Option Error) :=
  match deliver.receiverMap.Load location with
  | none => Outcome.returns (Value.nil, some (Error.noReceiver location))
  | some receiver => receiver.syncProcess i

/-! ## delivery.go -/

/-- The method `(*defaultDeliverer).NewSender`. -/
def NewSender (d : defaultDeliverer) (location : String) (options : List SenderOption) :
    defaultDeliverer × Option defaultSender × Option Error :=
  match d.senderMap.Load location with
  | some _ => (d, none, some (Error.senderExists location))
  | none =>
    match newDefaultSender location options with
    | (some sender, none) => ({ d with senderMap := d.senderMap.Store location sender }, some sender, none)
    | (_, some err) => (d, none, some err)
    | (none, none) => (d, none, none)

/-- The method `(*defaultDeliverer).NewReceiver`. -/
def NewReceiver (d : defaultDeliverer) (location : String) (options : List ReceiverOption) :
    defaultDeliverer × Outcome (Option defaultReceiver × Option Error) :=
  match d.receiverMap.Load location with
  | some _ => (d, Outcome.returns (none, some (Error.receiverExists location)))
  | none =>
    match newDefaultReceiver d location options with
    | (d1, Outcome.returns (some receiver, none)) =>
      ({ d1 with receiverMap := d1.receiverMap.Store location receiver },
        Outcome.returns (some receiver, none))
    | (d1, Outcome.returns (_, some err)) => (d1, Outcome.returns (none, some err))
    | (d1, Outcome.returns (none, none)) => (d1, Outcome.returns (none, none))
    | (d1, Outcome.panics) => (d1, Outcome.panics)
    | (d1, Outcome.blocks) => (d1, Outcome.blocks)

/-- The method `(*defaultDeliverer).DeleteLocation`: `close` of an already
closed channel panics (after the entry has been removed). -/
def DeleteLocation (d : defaultDeliverer) (location : String) :
    defaultDeliverer × Outcome Unit :=
  match d.chanMap.LoadAndDelete location with
  | (none, _) => (d, Outcome.returns ())
  | (some ch, chanMap) =>
    if (d.heap ch).closed then ({ d with chanMap := chanMap }, Outcome.panics)
    else
      ({ d with
          chanMap := chanMap
          heap := setChan d.heap ch { d.heap ch with closed := true } },
        Outcome.returns ())

/-! ## Callers: sequences of calls -/

/-- The channel object currently registered for a location, if any. -/
def transport (d : defaultDeliverer) (location : String) : Option Chan :=
  (d.chanMap.Load location).map d.heap

/-- Call `SendTo` on each value in order, collecting the outcomes. -/
def sendAll (d : defaultDeliverer) (location : String) :
    List Value → defaultDeliverer × List (Outcome (Option Error))
  | [] => (d, [])
  | v :: vs =>
    ((sendAll (defaultSender.SendTo d location v).1 location vs).1,
      (defaultSender.SendTo d location v).2 ::
        (sendAll (defaultSender.SendTo d location v).1 location vs).2)

/-- Call `ToReceive` a number of times, collecting the outcomes. -/
def receiveN (d : defaultDeliverer) (location : String) :
    Nat → defaultDeliverer × List (Outcome (Value × Option Error))
  | 0 => (d, [])
  | n + 1 =>
    ((receiveN (defaultReceiver.ToReceive d location).1 location n).1,
      (defaultReceiver.ToReceive d location).2 ::
        (receiveN (defaultReceiver.ToReceive d location).1 location n).2)

/-- The state in which the values `vs` have been appended to the buffer at `ch`. -/
def pushed (d : defaultDeliverer) (ch : Nat) (vs : List Value) : defaultDeliverer :=
  { d with heap := setChan d.heap ch { d.heap ch with buf := (d.heap ch).buf ++ vs } }

/-- The state in which the buffer at `ch` has been replaced by `rest`. -/
def withBuf (d : defaultDeliverer) (ch : Nat) (rest : List Value) : defaultDeliverer :=
  { d with heap := setChan d.heap ch { d.heap ch with buf := rest } }

/-- A call on the public surface of the package.  `SetBufferLength` is
reachable on a Receiver through its `ReceiverConfig` methods. -/
inductive Call
  | NewSender (location : String) (options : List SenderOption)
  | NewReceiver (location : String) (options : List ReceiverOption)
  | DeleteLocation (location : String)
  | SendTo (location : String) (i : Value)
  | SyncSendTo (location : String) (i : Value)
  | ToReceive (location : String)
  | ToSyncReceive (location : String) (handle : ReceiveHandle)
  | SetBufferLength (location : String) (len : Int)

/-- The method `SetBufferLength` called on the registered receiver object of a location. -/
def SetBufferLengthAt (deliver : defaultDeliverer) (location : String) (len : Int) :
    defaultDeliverer :=
  match deliver.receiverMap.Load location with
  | none => deliver
  | some d =>
    { deliver with receiverMap := deliver.receiverMap.Store location (d.SetBufferLength len) }

/-- The state after one call (whatever its outcome). -/
def exec (d : defaultDeliverer) : Call → defaultDeliverer
  | Call.NewSender location options => (NewSender d location options).1
  | Call.NewReceiver location options => (NewReceiver d location options).1
  | Call.DeleteLocation location => (DeleteLocation d location).1
  | Call.SendTo location i => (defaultSender.SendTo d location i).1
  | Call.SyncSendTo _ _ => d
  | Call.ToReceive location => (defaultReceiver.ToReceive d location).1
  | Call.ToSyncReceive location handle => defaultReceiver.ToSyncReceive d location handle
  | Call.SetBufferLength location len => SetBufferLengthAt d location len

/-- The state after a sequence of calls. -/
def run (d : defaultDeliverer) (calls : List Call) : defaultDeliverer :=
  calls.foldl exec d

/-- The state of `TestNew` and `TestSync` after their first three lines:
`New()`, `NewSender("test")`, `NewReceiver("test")`. -/
def testPaired : defaultDeliverer :=
  (NewReceiver (NewSender New "test" []).1 "test" []).1

/-- Whether a `NewReceiver` call succeeded: it returned a Receiver and a nil error. -/
def succeeded : Outcome (Option defaultReceiver × Option Error) → Bool
  | Outcome.returns (some _, none) => true
  | _ => false

/-- The spec's condition for a Transport entry of `location`, updated by one
call made in state `d`: a successful `NewReceiver` on the location turns it on,
a `DeleteLocation` on the location turns it off, any other call keeps it. -/
def liveAfter (location : String) (d : defaultDeliverer) (live : Bool) : Call → Bool
  | Call.NewReceiver l options =>
    if l = location ∧ succeeded (NewReceiver d l options).2 = true then true else live
  | Call.DeleteLocation l => if l = location then false else live
  | _ => live

/-- The spec's condition for a Transport entry of `location` after a history of
calls: "`NewReceiver` has succeeded for the location and `DeleteLocation` has
not been called on it since".  `live` is the condition before the calls and
`d` the state before them. -/
def transportExpected (location : String) : defaultDeliverer → Bool → List Call → Bool
  | _, live, [] => live
  | d, live, c :: cs => transportExpected location (exec d c) (liveAfter location d live c) cs

/-- Every channel object holds at most as many values as its capacity. -/
def queuesBounded (d : defaultDeliverer) : Prop :=
  ∀ r : Nat, (d.heap r).buf.length ≤ (d.heap r).cap

/-- The location a call is made on. -/
def Call.location : Call → String
  | Call.NewSender location _ => location
  | Call.NewReceiver location _ => location
  | Call.DeleteLocation location => location
  | Call.SendTo location _ => location
  | Call.SyncSendTo location _ => location
  | Call.ToReceive location => location
  | Call.ToSyncReceive location _ => location
  | Call.SetBufferLength location _ => location

/-- What a call hands back to its caller. -/
inductive Result
  | newSender (r : Option defaultSender × Option Error)
  | newReceiver (r : Outcome (Option defaultReceiver × Option Error))
  | deleteLocation (r : Outcome Unit)
  | sendTo (r : Outcome (Option Error))
  | syncSendTo (r : Outcome (Value × Option Error))
  | toReceive (r : Outcome (Value × Option Error))
  | nothing

/-- The result of one call made in state `d`. -/
def result (d : defaultDeliverer) : Call → Result
  | Call.NewSender location options => Result.newSender (NewSender d location options).2
  | Call.NewReceiver location options => Result.newReceiver (NewReceiver d location options).2
  | Call.DeleteLocation location => Result.deleteLocation (DeleteLocation d location).2
  | Call.SendTo location i => Result.sendTo (defaultSender.SendTo d location i).2
  | Call.SyncSendTo location i => Result.syncSendTo (defaultSender.SyncSendTo d location i)
  | Call.ToReceive location => Result.toReceive (defaultReceiver.ToReceive d location).2
  | Call.ToSyncReceive _ _ => Result.nothing
  | Call.SetBufferLength _ _ => Result.nothing

/-- The results of a sequence of calls, each made in the state the previous ones left. -/
def results (d : defaultDeliverer) : List Call → List Result
  | [] => []
  | c :: cs => result d c :: results (exec d c) cs

/-- All that the state holds for one location: its Sender entry, its Receiver
entry (handler slot and buffer length included) and its Transport with the
queued values. -/
def view (d : defaultDeliverer) (location : String) :
    Option defaultSender × Option defaultReceiver × Option Chan :=
  (d.senderMap.Load location, d.receiverMap.Load location, transport d location)

/-- Channel addresses in the Transport mapping are allocated and not shared
between locations. -/
def addressesDistinct (d : defaultDeliverer) : Prop :=
  (∀ (l : String) (ch : Nat), d.chanMap.Load l = some ch → ch < d.nextChan) ∧
  (∀ (l1 l2 : String) (ch : Nat),
    d.chanMap.Load l1 = some ch → d.chanMap.Load l2 = some ch → l1 = l2)

/-! ## Two callers at once: `NewSender` and `NewReceiver` step by step

For concurrent callers a call is split at its accesses to shared state: the
`Lock` of its mutex, the `Load`, the `Store`s, and the deferred `Unlock`.  A
schedule picks which of two callers takes the next step; a caller waiting for a
held mutex does not move. -/

/-- The state shared by concurrent callers: the Deliverer and whether each of
its two mutexes is held. -/
structure Shared where
  d : defaultDeliverer
  senderMtx : Bool
  receiverMtx : Bool

/-- A `NewSender` or `NewReceiver` call in progress, by the statement it is
about to run: `Lock`, the `Load` of the duplicate check, the `Store`s, the
deferred `Unlock` (the return values are fixed by then), or returned. -/
inductive Thread
  | senderLock (location : String) (options : List SenderOption)
  | senderLoad (location : String) (options : List SenderOption)
  | senderStore (location : String) (sender : defaultSender)
  | senderUnlock (ret : Option defaultSender × Option Error)
  | senderDone (ret : Option defaultSender × Option Error)
  | receiverLock (location : String) (options : List ReceiverOption)
  | receiverLoad (location : String) (options : List ReceiverOption)
  | receiverChan (location : String) (receiver : defaultReceiver) (ch : Chan)
  | receiverStore (location : String) (receiver : defaultReceiver)
  | receiverUnlock (ret : Outcome (Option defaultReceiver × Option Error))
  | receiverDone (ret : Outcome (Option defaultReceiver × Option Error))

/-- One step of a call in progress on the shared state.  `Lock` on a held
mutex leaves everything as it is. -/
def Thread.step (s : Shared) : Thread → Shared × Thread
  | Thread.senderLock location options =>
    if s.senderMtx then (s, Thread.senderLock location options)
    else ({ s with senderMtx := true }, Thread.senderLoad location options)
  | Thread.senderLoad location options =>
    match s.d.senderMap.Load location with
    | some _ => (s, Thread.senderUnlock (none, some (Error.senderExists location)))
    | none =>
      match newDefaultSender location options with
      | (some sender, none) => (s, Thread.senderStore location sender)
      | (_, some err) => (s, Thread.senderUnlock (none, some err))
      | (none, none) => (s, Thread.senderUnlock (none, none))
  | Thread.senderStore location sender =>
    ({ s with d := { s.d with senderMap := s.d.senderMap.Store location sender } },
      Thread.senderUnlock (some sender, none))
  | Thread.senderUnlock ret => ({ s with senderMtx := false }, Thread.senderDone ret)
  | Thread.senderDone ret => (s, Thread.senderDone ret)
  | Thread.receiverLock location options =>
    if s.receiverMtx then (s, Thread.receiverLock location options)
    else ({ s with receiverMtx := true }, Thread.receiverLoad location options)
  | Thread.receiverLoad location options =>
    match s.d.receiverMap.Load location with
    | some _ =>
      (s, Thread.receiverUnlock (Outcome.returns (none, some (Error.receiverExists location))))
    | none =>
      match applyReceiverOptions
        { location := location, handle := none, bufferLength := defaultReceiveBufferLength }
        options with
      | (_, some err) => (s, Thread.receiverUnlock (Outcome.returns (none, some err)))
      | (receiver, none) =>
        match makeChan receiver.bufferLength with
        | none => (s, Thread.receiverUnlock Outcome.panics)
        | some ch => (s, Thread.receiverChan location receiver ch)
  | Thread.receiverChan location receiver ch =>
    ({ s with d := { s.d with
          heap := setChan s.d.heap s.d.nextChan ch
          nextChan := s.d.nextChan + 1
          chanMap := s.d.chanMap.Store location s.d.nextChan } },
      Thread.receiverStore location receiver)
  | Thread.receiverStore location receiver =>
    ({ s with d := { s.d with receiverMap := s.d.receiverMap.Store location receiver } },
      Thread.receiverUnlock (Outcome.returns (some receiver, none)))
  | Thread.receiverUnlock ret => ({ s with receiverMtx := false }, Thread.receiverDone ret)
  | Thread.receiverDone ret => (s, Thread.receiverDone ret)

/-- A number of steps of one call with no other caller around. -/
def Thread.steps (s : Shared) (t : Thread) : Nat → Shared × Thread
  | 0 => (s, t)
  | n + 1 => Thread.steps (Thread.step s t).1 (Thread.step s t).2 n

/-- Two calls in progress on one shared state. -/
structure Race where
  shared : Shared
  first : Thread
  second : Thread

/-- One scheduling decision: `true` lets the first caller take a step, `false`
the second. -/
def Race.step (r : Race) (pick : Bool) : Race :=
  if pick then
    { shared := (r.first.step r.shared).1, first := (r.first.step r.shared).2, second := r.second }
  else
    { shared := (r.second.step r.shared).1, first := r.first, second := (r.second.step r.shared).2 }

/-- The race after a schedule. -/
def Race.run (r : Race) (schedule : List Bool) : Race :=
  schedule.foldl Race.step r

/-- Two callers both at the start of `NewSender` for one location, mutexes free. -/
def senderRace (d : defaultDeliverer) (location : String) (o1 o2 : List SenderOption) : Race :=
  { shared := { d := d, senderMtx := false, receiverMtx := false }
    first := Thread.senderLock location o1
    second := Thread.senderLock location o2 }

/-- Two callers both at the start of `NewReceiver` for one location, mutexes free. -/
def receiverRace (d : defaultDeliverer) (location : String) (o1 o2 : List ReceiverOption) :
    Race :=
  { shared := { d := d, senderMtx := false, receiverMtx := false }
    first := Thread.receiverLock location o1
    second := Thread.receiverLock location o2 }

/-- Steps that let both callers finish from wherever they are: the first runs,
then the second, then the first again (it may have been waiting for the
second). -/
def finishBoth : List Bool :=
  List.replicate 5 true ++ List.replicate 5 false ++ List.replicate 5 true

/-- How far a race of two `NewSender` calls on one unregistered location has
got.  The caller that took the mutex first is the winner: it is at its `Load`,
`Store` or `Unlock`, or has returned while the other caller is still before its
`Lock` (`won`), at its `Load`, at its `Unlock`, or has returned too. -/
inductive SenderStage
  | start | load | store | unlock | won | loserLoad | loserUnlock | finished
  deriving DecidableEq, Repr

/-- How far a race of two `NewReceiver` calls has got; as `SenderStage`, with
the extra `chanMap.Store` of the winner. -/
inductive ReceiverStage
  | start | load | chan | store | unlock | won | loserLoad | loserUnlock | finished
  deriving DecidableEq, Repr

/-- The race in which the winner is at `a` and the other caller at `b`;
`winner = true` says the winner is the first caller. -/
def place (winner : Bool) (shared : Shared) (a b : Thread) : Race :=
  if winner then { shared := shared, first := a, second := b }
  else { shared := shared, first := b, second := a }

/-- The stage after one scheduling decision, for two `NewSender` calls. -/
def senderNext (p : Bool × SenderStage) (pick : Bool) : Bool × SenderStage :=
  match p.2 with
  | SenderStage.start => (pick, SenderStage.load)
  | SenderStage.load => if pick = p.1 then (p.1, SenderStage.store) else p
  | SenderStage.store => if pick = p.1 then (p.1, SenderStage.unlock) else p
  | SenderStage.unlock => if pick = p.1 then (p.1, SenderStage.won) else p
  | SenderStage.won => if pick = p.1 then p else (p.1, SenderStage.loserLoad)
  | SenderStage.loserLoad => if pick = p.1 then p else (p.1, SenderStage.loserUnlock)
  | SenderStage.loserUnlock => if pick = p.1 then p else (p.1, SenderStage.finished)
  | SenderStage.finished => p

/-- The stage after one scheduling decision, for two `NewReceiver` calls. -/
def receiverNext (p : Bool × ReceiverStage) (pick : Bool) : Bool × ReceiverStage :=
  match p.2 with
  | ReceiverStage.start => (pick, ReceiverStage.load)
  | ReceiverStage.load => if pick = p.1 then (p.1, ReceiverStage.chan) else p
  | ReceiverStage.chan => if pick = p.1 then (p.1, ReceiverStage.store) else p
  | ReceiverStage.store => if pick = p.1 then (p.1, ReceiverStage.unlock) else p
  | ReceiverStage.unlock => if pick = p.1 then (p.1, ReceiverStage.won) else p
  | ReceiverStage.won => if pick = p.1 then p else (p.1, ReceiverStage.loserLoad)
  | ReceiverStage.loserLoad => if pick = p.1 then p else (p.1, ReceiverStage.loserUnlock)
  | ReceiverStage.loserUnlock => if pick = p.1 then p else (p.1, ReceiverStage.finished)
  | ReceiverStage.finished => p

/-- The race of two `NewSender` calls (options `o1`, `o2`) on `location` at a
given stage, started on the Deliverer `d` with both mutexes free. -/
def senderStageRace (d : defaultDeliverer) (location : String) (o1 o2 : List SenderOption)
    (p : Bool × SenderStage) : Race :=
  let loser : List SenderOption := if p.1 then o2 else o1
  let winner : List SenderOption := if p.1 then o1 else o2
  let stored : defaultDeliverer :=
    { d with senderMap := d.senderMap.Store location { location := location } }
  let success : Option defaultSender × Option Error := (some { location := location }, none)
  let duplicate : Option defaultSender × Option Error :=
    (none, some (Error.senderExists location))
  match p.2 with
  | SenderStage.start =>
    place p.1 { d := d, senderMtx := false, receiverMtx := false }
      (Thread.senderLock location winner) (Thread.senderLock location loser)
  | SenderStage.load =>
    place p.1 { d := d, senderMtx := true, receiverMtx := false }
      (Thread.senderLoad location winner) (Thread.senderLock location loser)
  | SenderStage.store =>
    place p.1 { d := d, senderMtx := true, receiverMtx := false }
      (Thread.senderStore location { location := location }) (Thread.senderLock location loser)
  | SenderStage.unlock =>
    place p.1 { d := stored, senderMtx := true, receiverMtx := false }
      (Thread.senderUnlock success) (Thread.senderLock location loser)
  | SenderStage.won =>
    place p.1 { d := stored, senderMtx := false, receiverMtx := false }
      (Thread.senderDone success) (Thread.senderLock location loser)
  | SenderStage.loserLoad =>
    place p.1 { d := stored, senderMtx := true, receiverMtx := false }
      (Thread.senderDone success) (Thread.senderLoad location loser)
  | SenderStage.loserUnlock =>
    place p.1 { d := stored, senderMtx := true, receiverMtx := false }
      (Thread.senderDone success) (Thread.senderUnlock duplicate)
  | SenderStage.finished =>
    place p.1 { d := stored, senderMtx := false, receiverMtx := false }
      (Thread.senderDone success) (Thread.senderDone duplicate)

/-- The race of two `NewReceiver` calls on `location` at a given stage; `r1`
and `r2` are the Receivers the two callers configure from their options. -/
def receiverStageRace (d : defaultDeliverer) (location : String)
    (o1 o2 : List ReceiverOption) (r1 r2 : defaultReceiver) (p : Bool × ReceiverStage) : Race :=
  let loser : List ReceiverOption := if p.1 then o2 else o1
  let winner : List ReceiverOption := if p.1 then o1 else o2
  let receiver : defaultReceiver := if p.1 then r1 else r2
  let ch : Chan := { cap := receiver.bufferLength.toNat, buf := [], closed := false }
  let withChan : defaultDeliverer :=
    { d with
        heap := setChan d.heap d.nextChan ch
        nextChan := d.nextChan + 1
        chanMap := d.chanMap.Store location d.nextChan }
  let stored : defaultDeliverer :=
    { withChan with receiverMap := d.receiverMap.Store location receiver }
  let success : Outcome (Option defaultReceiver × Option Error) :=
    Outcome.returns (some receiver, none)
  let duplicate : Outcome (Option defaultReceiver × Option Error) :=
    Outcome.returns (none, some (Error.receiverExists location))
  match p.2 with
  | ReceiverStage.start =>
    place p.1 { d := d, senderMtx := false, receiverMtx := false }
      (Thread.receiverLock location winner) (Thread.receiverLock location loser)
  | ReceiverStage.load =>
    place p.1 { d := d, senderMtx := false, receiverMtx := true }
      (Thread.receiverLoad location winner) (Thread.receiverLock location loser)
  | ReceiverStage.chan =>
    place p.1 { d := d, senderMtx := false, receiverMtx := true }
      (Thread.receiverChan location receiver ch) (Thread.receiverLock location loser)
  | ReceiverStage.store =>
    place p.1 { d := withChan, senderMtx := false, receiverMtx := true }
      (Thread.receiverStore location receiver) (Thread.receiverLock location loser)
  | ReceiverStage.unlock =>
    place p.1 { d := stored, senderMtx := false, receiverMtx := true }
      (Thread.receiverUnlock success) (Thread.receiverLock location loser)
  | ReceiverStage.won =>
    place p.1 { d := stored, senderMtx := false, receiverMtx := false }
      (Thread.receiverDone success) (Thread.receiverLock location loser)
  | ReceiverStage.loserLoad =>
    place p.1 { d := stored, senderMtx := false, receiverMtx := true }
      (Thread.receiverDone success) (Thread.receiverLoad location loser)
  | ReceiverStage.loserUnlock =>
    place p.1 { d := stored, senderMtx := false, receiverMtx := true }
      (Thread.receiverDone success) (Thread.receiverUnlock duplicate)
  | ReceiverStage.finished =>
    place p.1 { d := stored, senderMtx := false, receiverMtx := false }
      (Thread.receiverDone success) (Thread.receiverDone duplicate)

/-! ## Basic facts about the maps and the heap -/

section Basics

variable {α : Type}

@[simp] theorem SyncMap.Load_empty (key : String) :
    (SyncMap.empty : SyncMap α).Load key = none := rfl

@[simp] theorem SyncMap.Load_Store_self (m : SyncMap α) (key : String) (value : α) :
    (m.Store key value).Load key = some value := by
  simp [SyncMap.Load, SyncMap.Store]

theorem SyncMap.Load_Store_of_ne (m : SyncMap α) {key k : String} (value : α) (h : k ≠ key) :
    (m.Store key value).Load k = m.Load k := by
  simp [SyncMap.Load, SyncMap.Store, h]

theorem SyncMap.Load_Store (m : SyncMap α) (key k : String) (value : α) :
    (m.Store key value).Load k = if k = key then some value else m.Load k := by
  simp [SyncMap.Load, SyncMap.Store]

@[simp] theorem SyncMap.LoadAndDelete_fst (m : SyncMap α) (key : String) :
    (m.LoadAndDelete key).1 = m.Load key := rfl

@[simp] theorem SyncMap.Load_LoadAndDelete_self (m : SyncMap α) (key : String) :
    (m.LoadAndDelete key).2.Load key = none := by
  simp [SyncMap.Load, SyncMap.LoadAndDelete]

theorem SyncMap.Load_LoadAndDelete (m : SyncMap α) (key k : String) :
    (m.LoadAndDelete key).2.Load k = if k = key then none else m.Load k := by
  simp [SyncMap.Load, SyncMap.LoadAndDelete]

@[simp] theorem setChan_self (heap : Nat → Chan) (ref : Nat) (ch : Chan) :
    setChan heap ref ch ref = ch := by
  simp [setChan]

theorem setChan_of_ne (heap : Nat → Chan) {ref r : Nat} (ch : Chan) (h : r ≠ ref) :
    setChan heap ref ch r = heap r := by
  simp [setChan, h]

@[simp] theorem setChan_setChan (heap : Nat → Chan) (ref : Nat) (ch ch1 : Chan) :
    setChan (setChan heap ref ch) ref ch1 = setChan heap ref ch1 := by
  funext r
  by_cases h : r = ref <;> simp [setChan, h]

@[simp] theorem setChan_same (heap : Nat → Chan) (ref : Nat) :
    setChan heap ref (heap ref) = heap := by
  funext r
  by_cases h : r = ref <;> simp [setChan, h]

end Basics

theorem makeChan_of_inRange {size : Int} (h : sizeInRange size) :
    makeChan size = some { cap := size.toNat, buf := [], closed := false } := by
  have h1 : ¬ size < 0 := Int.not_lt.mpr h.1
  have h2 : ¬ maxAlloc - hchanSize < elemSize * size.toNat := Nat.not_lt.mpr h.2
  simp [makeChan, h1, h2]

theorem makeChan_of_not_inRange {size : Int} (h : ¬ sizeInRange size) :
    makeChan size = none := by
  have h1 : size < 0 ∨ maxAlloc - hchanSize < elemSize * size.toNat := by
    by_cases h0 : size < 0
    · exact Or.inl h0
    · right
      exact Nat.lt_of_not_le (fun h2 => h ⟨Int.not_lt.mp h0, h2⟩)
  simp [makeChan, h1]

theorem sizeInRange_default : sizeInRange defaultReceiveBufferLength := by
  decide

/-! ## Asynchronous delivery: one step -/

theorem pushed_nil (d : defaultDeliverer) (ch : Nat) : pushed d ch [] = d := by
  simp [pushed]

theorem pushed_pushed (d : defaultDeliverer) (ch : Nat) (us vs : List Value) :
    pushed (pushed d ch us) ch vs = pushed d ch (us ++ vs) := by
  simp [pushed, List.append_assoc]

theorem SendTo_room (d : defaultDeliverer) (location : String) (ch : Nat) (v : Value)
    (hr : (d.receiverMap.Load location).isSome) (hc : d.chanMap.Load location = some ch)
    (hopen : (d.heap ch).closed = false) (hroom : (d.heap ch).buf.length < (d.heap ch).cap) :
    defaultSender.SendTo d location v = (pushed d ch [v], Outcome.returns none) := by
  obtain ⟨r, hr1⟩ := Option.isSome_iff_exists.mp hr
  simp [defaultSender.SendTo, defaultSender.sendTo, hr1, hc, hopen, hroom, pushed]

theorem SendTo_full (d : defaultDeliverer) (location : String) (ch : Nat) (v : Value)
    (hr : (d.receiverMap.Load location).isSome) (hc : d.chanMap.Load location = some ch)
    (hopen : (d.heap ch).closed = false) (hfull : (d.heap ch).cap ≤ (d.heap ch).buf.length) :
    defaultSender.SendTo d location v = (d, Outcome.returns (some ErrReceiverBufferFulled)) := by
  obtain ⟨r, hr1⟩ := Option.isSome_iff_exists.mp hr
  simp [defaultSender.SendTo, defaultSender.sendTo, hr1, hc, hopen, Nat.not_lt.mpr hfull]

theorem ToReceive_cons (d : defaultDeliverer) (location : String) (ch : Nat) (v : Value)
    (rest : List Value)
    (hs : (d.senderMap.Load location).isSome) (hc : d.chanMap.Load location = some ch)
    (hbuf : (d.heap ch).buf = v :: rest) :
    defaultReceiver.ToReceive d location = (withBuf d ch rest, Outcome.returns (v, none)) := by
  obtain ⟨s, hs1⟩ := Option.isSome_iff_exists.mp hs
  simp [defaultReceiver.ToReceive, defaultReceiver.ToReceive_TransportChan,
    defaultReceiver.toReceive, hs1, hc, hbuf, withBuf]

theorem ToReceive_empty_open (d : defaultDeliverer) (location : String) (ch : Nat)
    (hs : (d.senderMap.Load location).isSome) (hc : d.chanMap.Load location = some ch)
    (hbuf : (d.heap ch).buf = []) (hopen : (d.heap ch).closed = false) :
    defaultReceiver.ToReceive d location = (d, Outcome.blocks) := by
  obtain ⟨s, hs1⟩ := Option.isSome_iff_exists.mp hs
  simp [defaultReceiver.ToReceive, defaultReceiver.ToReceive_TransportChan,
    defaultReceiver.toReceive, hs1, hc, hbuf, hopen]

theorem sendAll_room (location : String) (ch : Nat) (vs : List Value) :
    ∀ d : defaultDeliverer, (d.receiverMap.Load location).isSome →
      d.chanMap.Load location = some ch → (d.heap ch).closed = false →
      (d.heap ch).buf.length + vs.length ≤ (d.heap ch).cap →
      sendAll d location vs = (pushed d ch vs, vs.map (fun _ => Outcome.returns none)) := by
  induction vs with
  | nil => intro d _ _ _ _; simp [sendAll, pushed_nil]
  | cons v vs ih =>
    intro d hr hc hopen hcap
    have hroom : (d.heap ch).buf.length < (d.heap ch).cap := by
      simp only [List.length_cons] at hcap; omega
    have hstep := SendTo_room d location ch v hr hc hopen hroom
    have hrec := ih (pushed d ch [v]) (by simpa [pushed] using hr) (by simpa [pushed] using hc)
      (by simpa [pushed] using hopen)
      (by simp only [List.length_cons] at hcap; simp [pushed]; omega)
    simp only [sendAll, hstep, hrec, pushed_pushed]
    simp

theorem receiveN_buffered (location : String) (ch : Nat) (vs rest : List Value) :
    ∀ d : defaultDeliverer, (d.senderMap.Load location).isSome →
      d.chanMap.Load location = some ch → (d.heap ch).buf = vs ++ rest →
      receiveN d location vs.length
        = (withBuf d ch rest, vs.map (fun v => Outcome.returns (v, none))) := by
  induction vs with
  | nil =>
    intro d _ _ hbuf
    have : withBuf d ch rest = d := by
      simp only [List.nil_append] at hbuf
      simp [withBuf, ← hbuf]
    simp [receiveN, this]
  | cons v vs ih =>
    intro d hs hc hbuf
    have hstep := ToReceive_cons d location ch v (vs ++ rest) hs hc (by simpa using hbuf)
    have hrec := ih (withBuf d ch (vs ++ rest)) (by simpa [withBuf] using hs)
      (by simpa [withBuf] using hc) (by simp [withBuf])
    simp only [List.length_cons, receiveN, hstep, hrec]
    simp [withBuf]

/-! ## C1, C2: FIFO delivery and the bounded buffer -/

/-- C1: on a location with a registered Sender and Receiver and an empty, open
Transport, sending the values `vs` (no more than the capacity) in order returns
nil every time, and the same number of `ToReceive` calls then return exactly
`vs` in order, each with a nil error; in particular one `SendTo v` followed by
one `ToReceive` returns `(v, nil)`. -/
theorem SendTo_ToReceive_fifo (d : defaultDeliverer) (location : String) (ch : Nat)
    (vs : List Value)
    (hs : (d.senderMap.Load location).isSome) (hr : (d.receiverMap.Load location).isSome)
    (hc : d.chanMap.Load location = some ch)
    (hempty : (d.heap ch).buf = []) (hopen : (d.heap ch).closed = false)
    (hcap : vs.length ≤ (d.heap ch).cap) :
    (sendAll d location vs).2 = vs.map (fun _ => Outcome.returns none) ∧
    (receiveN (sendAll d location vs).1 location vs.length).2
      = vs.map (fun v => Outcome.returns (v, none)) ∧
    (∀ v : Value, 0 < (d.heap ch).cap →
      (defaultSender.SendTo d location v).2 = Outcome.returns none ∧
      (defaultReceiver.ToReceive (defaultSender.SendTo d location v).1 location).2
        = Outcome.returns (v, none)) := by
  have hsend := sendAll_room location ch vs d hr hc hopen (by simp [hempty, hcap])
  refine ⟨by rw [hsend], ?_, ?_⟩
  · rw [hsend]
    have hrecv := receiveN_buffered location ch vs [] (pushed d ch vs)
      (by simpa [pushed] using hs) (by simpa [pushed] using hc) (by simp [pushed, hempty])
    rw [hrecv]
  · intro v hpos
    have hstep := SendTo_room d location ch v hr hc hopen (by simp [hempty, hpos])
    have hrecv := ToReceive_cons (pushed d ch [v]) location ch v []
      (by simpa [pushed] using hs) (by simpa [pushed] using hc) (by simp [pushed, hempty])
    rw [hstep]
    exact ⟨rfl, by rw [hrecv]⟩

/-- Witness for C1: the state of `TestNew` after its registrations, three values. -/
theorem SendTo_ToReceive_fifo_witness :
    (sendAll testPaired "test" [Value.str "a", Value.str "b", Value.int 3]).2
      = [Value.str "a", Value.str "b", Value.int 3].map (fun _ => Outcome.returns none) ∧
    (receiveN (sendAll testPaired "test" [Value.str "a", Value.str "b", Value.int 3]).1
        "test" 3).2
      = [Value.str "a", Value.str "b", Value.int 3].map (fun v => Outcome.returns (v, none)) ∧
    (∀ v : Value, 0 < (testPaired.heap 0).cap →
      (defaultSender.SendTo testPaired "test" v).2 = Outcome.returns none ∧
      (defaultReceiver.ToReceive (defaultSender.SendTo testPaired "test" v).1 "test").2
        = Outcome.returns (v, none)) :=
  SendTo_ToReceive_fifo testPaired "test" 0 [Value.str "a", Value.str "b", Value.int 3]
    (by decide) (by decide) (by decide) (by decide) (by decide) (by decide)

theorem NewReceiver_fresh (d : defaultDeliverer) (location : String)
    (options : List ReceiverOption) (receiver : defaultReceiver)
    (hfree : d.receiverMap.Load location = none)
    (hopt : applyReceiverOptions
      { location := location, handle := none, bufferLength := defaultReceiveBufferLength }
      options = (receiver, none))
    (hlen : sizeInRange receiver.bufferLength) :
    NewReceiver d location options =
      ({ d with
          heap := setChan d.heap d.nextChan
            { cap := receiver.bufferLength.toNat, buf := [], closed := false }
          nextChan := d.nextChan + 1
          chanMap := d.chanMap.Store location d.nextChan
          receiverMap := d.receiverMap.Store location receiver },
        Outcome.returns (some receiver, none)) := by
  simp [NewReceiver, newDefaultReceiver, hfree, hopt, makeChan_of_inRange hlen]

theorem NewReceiver_cases (d : defaultDeliverer) (location : String)
    (options : List ReceiverOption) :
    (succeeded (NewReceiver d location options).2 = false ∧
      (NewReceiver d location options).1 = d) ∨
    (∃ receiver : defaultReceiver,
      d.receiverMap.Load location = none ∧
      applyReceiverOptions
        { location := location, handle := none, bufferLength := defaultReceiveBufferLength }
        options = (receiver, none) ∧
      sizeInRange receiver.bufferLength ∧
      (NewReceiver d location options).2 = Outcome.returns (some receiver, none)) := by
  cases h1 : d.receiverMap.Load location with
  | some r =>
    left
    simp [NewReceiver, h1, succeeded]
  | none =>
    rcases h2 : applyReceiverOptions
      { location := location, handle := none, bufferLength := defaultReceiveBufferLength }
      options with ⟨r, _ | e⟩
    · by_cases h3 : sizeInRange r.bufferLength
      · right
        refine ⟨r, rfl, rfl, h3, ?_⟩
        rw [NewReceiver_fresh d location options r h1 h2 h3]
      · left
        simp [NewReceiver, newDefaultReceiver, h1, h2, makeChan_of_not_inRange h3, succeeded]
    · left
      simp [NewReceiver, newDefaultReceiver, h1, h2, succeeded]

/-- C2: with a Transport of positive capacity `n`, empty and open, on a paired
location: `n` sends return nil, one more returns `ErrReceiverBufferFulled` and
leaves the state unchanged; after one `ToReceive` (which returns the oldest
value) the next send returns nil and the one after it returns
`ErrReceiverBufferFulled` again.  The capacity is 5 when `NewReceiver` gets no
option, and whenever `NewReceiver` with a `ReceiveOption` returns a Receiver it
is the configured length. -/
theorem SendTo_buffer_full (d : defaultDeliverer) (location : String) (ch n : Nat)
    (vs : List Value) (v w x : Value)
    (hs : (d.senderMap.Load location).isSome) (hr : (d.receiverMap.Load location).isSome)
    (hc : d.chanMap.Load location = some ch)
    (hempty : (d.heap ch).buf = []) (hopen : (d.heap ch).closed = false)
    (hn : 0 < n) (hcap : (d.heap ch).cap = n) (hlen : vs.length = n) :
    (sendAll d location vs).2 = vs.map (fun _ => Outcome.returns none) ∧
    defaultSender.SendTo (sendAll d location vs).1 location v
      = ((sendAll d location vs).1, Outcome.returns (some ErrReceiverBufferFulled)) ∧
    (∀ v0 rest, vs = v0 :: rest →
      (defaultReceiver.ToReceive (sendAll d location vs).1 location).2
        = Outcome.returns (v0, none)) ∧
    (defaultSender.SendTo
        (defaultReceiver.ToReceive (sendAll d location vs).1 location).1 location w).2
      = Outcome.returns none ∧
    defaultSender.SendTo
        (defaultSender.SendTo
          (defaultReceiver.ToReceive (sendAll d location vs).1 location).1 location w).1
        location x
      = ((defaultSender.SendTo
          (defaultReceiver.ToReceive (sendAll d location vs).1 location).1 location w).1,
        Outcome.returns (some ErrReceiverBufferFulled)) ∧
    (∀ (d0 : defaultDeliverer) (loc : String), d0.receiverMap.Load loc = none →
      transport (NewReceiver d0 loc []).1 loc = some { cap := 5, buf := [], closed := false }) ∧
    (∀ (d0 : defaultDeliverer) (loc : String) (m : Int) (receiver : defaultReceiver),
      (NewReceiver d0 loc [(ReceiveOption.mk m).toReceiverOption]).2
        = Outcome.returns (some receiver, none) →
      transport (NewReceiver d0 loc [(ReceiveOption.mk m).toReceiverOption]).1 loc
        = some { cap := m.toNat, buf := [], closed := false }) := by
  have hsend := sendAll_room location ch vs d hr hc hopen (by simp [hempty, hcap, hlen])
  obtain ⟨v0, rest, rfl⟩ : ∃ v0 rest, vs = v0 :: rest := by
    cases vs with
    | nil => simp at hlen; omega
    | cons a l => exact ⟨a, l, rfl⟩
  have hlen1 : rest.length + 1 = n := by simpa using hlen
  -- the state after the `n` sends
  have h1s : ((pushed d ch (v0 :: rest)).senderMap.Load location).isSome := by
    simpa [pushed] using hs
  have h1r : ((pushed d ch (v0 :: rest)).receiverMap.Load location).isSome := by
    simpa [pushed] using hr
  have h1c : (pushed d ch (v0 :: rest)).chanMap.Load location = some ch := by
    simpa [pushed] using hc
  have hfull := SendTo_full (pushed d ch (v0 :: rest)) location ch v h1r h1c
    (by simpa [pushed] using hopen) (by simp [pushed, hempty, hcap, hlen1])
  have hrecv := ToReceive_cons (pushed d ch (v0 :: rest)) location ch v0 rest h1s h1c
    (by simp [pushed, hempty])
  -- the state after the receive
  have h2r : ((withBuf (pushed d ch (v0 :: rest)) ch rest).receiverMap.Load location).isSome := by
    simpa [pushed, withBuf] using hr
  have h2c : (withBuf (pushed d ch (v0 :: rest)) ch rest).chanMap.Load location = some ch := by
    simpa [pushed, withBuf] using hc
  have hroom := SendTo_room (withBuf (pushed d ch (v0 :: rest)) ch rest) location ch w h2r h2c
    (by simpa [pushed, withBuf] using hopen) (by simp [pushed, withBuf, hcap]; omega)
  have hfull2 := SendTo_full (pushed (withBuf (pushed d ch (v0 :: rest)) ch rest) ch [w])
    location ch x (by simpa [pushed, withBuf] using hr) (by simpa [pushed, withBuf] using hc)
    (by simpa [pushed, withBuf] using hopen) (by simp [pushed, withBuf, hcap]; omega)
  refine ⟨by rw [hsend], ?_, ?_, ?_, ?_, ?_, ?_⟩
  · rw [hsend]; exact hfull
  · intro a l hal
    rw [hsend, hrecv]
    cases hal
    rfl
  · rw [hsend, hrecv, hroom]
  · rw [hsend, hrecv, hroom]; exact hfull2
  · intro d0 loc hfree
    rw [NewReceiver_fresh d0 loc [] _ hfree rfl sizeInRange_default]
    simp [transport, defaultReceiveBufferLength]
  · intro d0 loc m receiver hret
    rcases NewReceiver_cases d0 loc [(ReceiveOption.mk m).toReceiverOption] with
      ⟨h1, _⟩ | ⟨rcv, hfree, hopt, hlen, _⟩
    · rw [hret] at h1; simp [succeeded] at h1
    · have hm : rcv.bufferLength = m := by
        simp only [applyReceiverOptions, ReceiverOption.Apply, ReceiveOption.toReceiverOption,
          List.foldl_cons, List.foldl_nil, defaultReceiver.SetBufferLength,
          Prod.mk.injEq, and_true] at hopt
        rw [← hopt]
      rw [NewReceiver_fresh d0 loc _ rcv hfree hopt hlen]
      simp [transport, hm]

/-- Witness for C2: the default buffer of five on the state of `TestNew`. -/
theorem SendTo_buffer_full_witness :
    (sendAll testPaired "test" (List.replicate 5 (Value.str "test msg"))).2
      = (List.replicate 5 (Value.str "test msg")).map (fun _ => Outcome.returns none) ∧
    (defaultSender.SendTo
        (sendAll testPaired "test" (List.replicate 5 (Value.str "test msg"))).1
        "test" (Value.int 6)).2
      = Outcome.returns (some ErrReceiverBufferFulled) :=
  have h := SendTo_buffer_full testPaired "test" 0 5 (List.replicate 5 (Value.str "test msg"))
    (Value.int 6) (Value.int 7) (Value.int 8)
    (by decide) (by decide) (by decide) (by decide) (by decide) (by decide) (by decide)
    (by decide)
  ⟨h.1, by rw [h.2.1]⟩

/-! ## What each call leaves alone -/

theorem SendTo_maps (d : defaultDeliverer) (location : String) (i : Value) :
    (defaultSender.SendTo d location i).1.senderMap = d.senderMap ∧
    (defaultSender.SendTo d location i).1.receiverMap = d.receiverMap ∧
    (defaultSender.SendTo d location i).1.chanMap = d.chanMap ∧
    (defaultSender.SendTo d location i).1.nextChan = d.nextChan := by
  unfold defaultSender.SendTo defaultSender.sendTo
  split
  · simp
  · split
    · simp
    · split
      · simp
      · split <;> simp

theorem ToReceive_maps (d : defaultDeliverer) (location : String) :
    (defaultReceiver.ToReceive d location).1.senderMap = d.senderMap ∧
    (defaultReceiver.ToReceive d location).1.receiverMap = d.receiverMap ∧
    (defaultReceiver.ToReceive d location).1.chanMap = d.chanMap ∧
    (defaultReceiver.ToReceive d location).1.nextChan = d.nextChan := by
  unfold defaultReceiver.ToReceive
  split
  · simp
  · split
    · simp
    · unfold defaultReceiver.ToReceive_TransportChan defaultReceiver.toReceive
      split <;> (rename_i heq; revert heq; split <;> (try split) <;> intro heq <;>
        simp only [Prod.mk.injEq] at heq <;> obtain ⟨h1, _⟩ := heq <;> subst h1 <;> simp)

theorem DeleteLocation_maps (d : defaultDeliverer) (location : String) :
    (DeleteLocation d location).1.senderMap = d.senderMap ∧
    (DeleteLocation d location).1.receiverMap = d.receiverMap ∧
    (DeleteLocation d location).1.nextChan = d.nextChan := by
  unfold DeleteLocation
  split
  · simp
  · split <;> simp

theorem DeleteLocation_chanMap (d : defaultDeliverer) (location k : String) :
    (DeleteLocation d location).1.chanMap.Load k
      = if k = location then none else d.chanMap.Load k := by
  unfold DeleteLocation
  split
  · rename_i heq
    have h1 : d.chanMap.Load location = none := by
      have := congrArg Prod.fst heq
      simpa using this
    by_cases hk : k = location
    · subst hk; simp [h1]
    · simp [hk]
  · rename_i ch chanMap heq
    have h2 : chanMap = (d.chanMap.LoadAndDelete location).2 := by rw [heq]
    split <;> simp [h2, SyncMap.Load_LoadAndDelete]

theorem NewSender_maps (d : defaultDeliverer) (location : String) (options : List SenderOption) :
    (NewSender d location options).1.receiverMap = d.receiverMap ∧
    (NewSender d location options).1.chanMap = d.chanMap ∧
    (NewSender d location options).1.heap = d.heap ∧
    (NewSender d location options).1.nextChan = d.nextChan := by
  unfold NewSender
  split
  · simp
  · split <;> simp

theorem NewSender_senderMap (d : defaultDeliverer) (location : String)
    (options : List SenderOption) (k : String) (h : (d.senderMap.Load k).isSome) :
    ((NewSender d location options).1.senderMap.Load k).isSome := by
  unfold NewSender
  split
  · exact h
  · split
    · simp only [SyncMap.Load_Store]
      split <;> simp [h]
    · exact h
    · exact h

theorem newDefaultReceiver_maps (d : defaultDeliverer) (location : String)
    (option : List ReceiverOption) :
    (newDefaultReceiver d location option).1.senderMap = d.senderMap ∧
    (newDefaultReceiver d location option).1.receiverMap = d.receiverMap := by
  simp only [newDefaultReceiver]
  split
  · simp
  · split <;> simp

theorem NewReceiver_senderMap (d : defaultDeliverer) (location : String)
    (options : List ReceiverOption) :
    (NewReceiver d location options).1.senderMap = d.senderMap := by
  have hm := (newDefaultReceiver_maps d location options).1
  unfold NewReceiver
  split
  · rfl
  · split <;> (rename_i heq; rw [heq] at hm; simpa using hm)

theorem NewReceiver_registered (d : defaultDeliverer) (location : String)
    (options : List ReceiverOption) (h : (d.receiverMap.Load location).isSome) :
    NewReceiver d location options
      = (d, Outcome.returns (none, some (Error.receiverExists location))) := by
  obtain ⟨r, hr⟩ := Option.isSome_iff_exists.mp h
  simp [NewReceiver, hr]

theorem NewReceiver_receiverMap (d : defaultDeliverer) (location : String)
    (options : List ReceiverOption) (k : String) (h : (d.receiverMap.Load k).isSome) :
    ((NewReceiver d location options).1.receiverMap.Load k).isSome := by
  have hm := (newDefaultReceiver_maps d location options).2
  unfold NewReceiver
  split
  · exact h
  · split <;> (rename_i heq; rw [heq] at hm; simp only at hm ⊢)
    · simp only [SyncMap.Load_Store, hm]
      split <;> simp [h]
    all_goals (rw [hm]; exact h)

theorem ToSyncReceive_maps (d : defaultDeliverer) (location : String) (handle : ReceiveHandle) :
    (defaultReceiver.ToSyncReceive d location handle).senderMap = d.senderMap ∧
    (defaultReceiver.ToSyncReceive d location handle).chanMap = d.chanMap ∧
    (defaultReceiver.ToSyncReceive d location handle).heap = d.heap ∧
    (defaultReceiver.ToSyncReceive d location handle).nextChan = d.nextChan := by
  unfold defaultReceiver.ToSyncReceive
  split <;> simp

theorem ToSyncReceive_receiverMap (d : defaultDeliverer) (location : String)
    (handle : ReceiveHandle) (k : String) :
    ((defaultReceiver.ToSyncReceive d location handle).receiverMap.Load k).isSome
      = (d.receiverMap.Load k).isSome := by
  unfold defaultReceiver.ToSyncReceive
  split
  · rfl
  · rename_i r hr
    simp only [SyncMap.Load_Store]
    split
    · rename_i hk; subst hk; simp [hr]
    · rfl

theorem SetBufferLengthAt_maps (d : defaultDeliverer) (location : String) (len : Int) :
    (SetBufferLengthAt d location len).senderMap = d.senderMap ∧
    (SetBufferLengthAt d location len).chanMap = d.chanMap ∧
    (SetBufferLengthAt d location len).heap = d.heap ∧
    (SetBufferLengthAt d location len).nextChan = d.nextChan := by
  unfold SetBufferLengthAt
  split <;> simp

theorem SetBufferLengthAt_receiverMap (d : defaultDeliverer) (location : String)
    (len : Int) (k : String) :
    ((SetBufferLengthAt d location len).receiverMap.Load k).isSome
      = (d.receiverMap.Load k).isSome := by
  unfold SetBufferLengthAt
  split
  · rfl
  · rename_i r hr
    simp only [SyncMap.Load_Store]
    split
    · rename_i hk; subst hk; simp [hr]
    · rfl

theorem newDefaultReceiver_chanMap_of_ne (d : defaultDeliverer) (location : String)
    (option : List ReceiverOption) {k : String} (hk : k ≠ location) :
    (newDefaultReceiver d location option).1.chanMap.Load k = d.chanMap.Load k := by
  simp only [newDefaultReceiver]
  split
  · simp
  · split <;> simp [SyncMap.Load_Store_of_ne, hk]

theorem NewReceiver_chanMap_of_ne (d : defaultDeliverer) (location : String)
    (options : List ReceiverOption) {k : String} (hk : k ≠ location) :
    (NewReceiver d location options).1.chanMap.Load k = d.chanMap.Load k := by
  have hm := newDefaultReceiver_chanMap_of_ne d location options hk
  unfold NewReceiver
  split
  · rfl
  · split <;> (rename_i heq; rw [heq] at hm; simpa using hm)

/-! ## Facts that survive every later call -/

theorem exec_sender_registered (d : defaultDeliverer) (c : Call) (k : String)
    (h : (d.senderMap.Load k).isSome) : ((exec d c).senderMap.Load k).isSome := by
  cases c with
  | NewSender location options => exact NewSender_senderMap d location options k h
  | NewReceiver location options =>
    simp only [exec, NewReceiver_senderMap]; exact h
  | DeleteLocation location =>
    simp only [exec, (DeleteLocation_maps d location).1]; exact h
  | SendTo location i => simp only [exec, (SendTo_maps d location i).1]; exact h
  | SyncSendTo location i => exact h
  | ToReceive location => simp only [exec, (ToReceive_maps d location).1]; exact h
  | ToSyncReceive location handle =>
    simp only [exec, (ToSyncReceive_maps d location handle).1]; exact h
  | SetBufferLength location len =>
    simp only [exec, (SetBufferLengthAt_maps d location len).1]; exact h

theorem exec_receiver_registered (d : defaultDeliverer) (c : Call) (k : String)
    (h : (d.receiverMap.Load k).isSome) : ((exec d c).receiverMap.Load k).isSome := by
  cases c with
  | NewSender location options =>
    simp only [exec, (NewSender_maps d location options).1]; exact h
  | NewReceiver location options => exact NewReceiver_receiverMap d location options k h
  | DeleteLocation location =>
    simp only [exec, (DeleteLocation_maps d location).2.1]; exact h
  | SendTo location i => simp only [exec, (SendTo_maps d location i).2.1]; exact h
  | SyncSendTo location i => exact h
  | ToReceive location => simp only [exec, (ToReceive_maps d location).2.1]; exact h
  | ToSyncReceive location handle =>
    simp only [exec, ToSyncReceive_receiverMap]; exact h
  | SetBufferLength location len =>
    simp only [exec, SetBufferLengthAt_receiverMap]; exact h

theorem exec_transport_gone (d : defaultDeliverer) (c : Call) (k : String)
    (hr : (d.receiverMap.Load k).isSome) (hc : d.chanMap.Load k = none) :
    (exec d c).chanMap.Load k = none := by
  cases c with
  | NewSender location options =>
    simp only [exec, (NewSender_maps d location options).2.1]; exact hc
  | NewReceiver location options =>
    by_cases hk : k = location
    · subst hk
      simp only [exec, NewReceiver_registered d k options hr]; exact hc
    · simp only [exec, NewReceiver_chanMap_of_ne d location options hk]; exact hc
  | DeleteLocation location =>
    simp only [exec, DeleteLocation_chanMap]
    split
    · rfl
    · exact hc
  | SendTo location i => simp only [exec, (SendTo_maps d location i).2.2.1]; exact hc
  | SyncSendTo location i => exact hc
  | ToReceive location => simp only [exec, (ToReceive_maps d location).2.2.1]; exact hc
  | ToSyncReceive location handle =>
    simp only [exec, (ToSyncReceive_maps d location handle).2.1]; exact hc
  | SetBufferLength location len =>
    simp only [exec, (SetBufferLengthAt_maps d location len).2.1]; exact hc

theorem run_sender_registered (calls : List Call) (k : String) :
    ∀ d : defaultDeliverer, (d.senderMap.Load k).isSome →
      ((run d calls).senderMap.Load k).isSome := by
  induction calls with
  | nil => intro d h; exact h
  | cons c cs ih => intro d h; exact ih (exec d c) (exec_sender_registered d c k h)

theorem run_receiver_registered (calls : List Call) (k : String) :
    ∀ d : defaultDeliverer, (d.receiverMap.Load k).isSome →
      ((run d calls).receiverMap.Load k).isSome := by
  induction calls with
  | nil => intro d h; exact h
  | cons c cs ih => intro d h; exact ih (exec d c) (exec_receiver_registered d c k h)

theorem run_transport_gone (calls : List Call) (k : String) :
    ∀ d : defaultDeliverer, (d.receiverMap.Load k).isSome → d.chanMap.Load k = none →
      (run d calls).chanMap.Load k = none := by
  induction calls with
  | nil => intro d _ hc; exact hc
  | cons c cs ih =>
    intro d hr hc
    exact ih (exec d c) (exec_receiver_registered d c k hr) (exec_transport_gone d c k hr hc)

/-! ## C3: registration and duplicates -/

theorem NewSender_registered (d : defaultDeliverer) (location : String)
    (options : List SenderOption) (h : (d.senderMap.Load location).isSome) :
    NewSender d location options = (d, none, some (Error.senderExists location)) := by
  obtain ⟨r, hr⟩ := Option.isSome_iff_exists.mp h
  simp [NewSender, hr]

theorem applySenderOptions_ok (sender : defaultSender) (options : List SenderOption)
    (h : ∀ o ∈ options, o.Apply sender = none) : applySenderOptions sender options = none := by
  induction options with
  | nil => rfl
  | cons o rest ih =>
    have ho : o.Apply sender = none := h o (by simp)
    simp only [applySenderOptions, ho]
    exact ih (fun o1 ho1 => h o1 (by simp [ho1]))

theorem NewSender_fresh (d : defaultDeliverer) (location : String)
    (options : List SenderOption) (hfree : d.senderMap.Load location = none)
    (h : ∀ o ∈ options, o.Apply { location := location } = none) :
    NewSender d location options =
      ({ d with senderMap := d.senderMap.Store location { location := location } },
        some { location := location }, none) := by
  simp [NewSender, newDefaultSender, hfree, applySenderOptions_ok _ options h]

theorem foldl_SetBufferLength_inRange (calls : List Int) :
    ∀ r : defaultReceiver, sizeInRange r.bufferLength → (∀ n ∈ calls, sizeInRange n) →
      sizeInRange (calls.foldl defaultReceiver.SetBufferLength r).bufferLength := by
  induction calls with
  | nil => intro r h _; exact h
  | cons n rest ih =>
    intro r _ hall
    exact ih (r.SetBufferLength n) (hall n (by simp)) (fun m hm => hall m (by simp [hm]))

theorem applyReceiverOptions_ok (options : List ReceiverOption) :
    ∀ r : defaultReceiver, sizeInRange r.bufferLength →
      (∀ o ∈ options, o.result = none ∧ ∀ n ∈ o.calls, sizeInRange n) →
      ∃ r1, applyReceiverOptions r options = (r1, none) ∧ sizeInRange r1.bufferLength := by
  induction options with
  | nil => intro r h _; exact ⟨r, rfl, h⟩
  | cons o rest ih =>
    intro r h hall
    obtain ⟨hres, hcalls⟩ := hall o (by simp)
    obtain ⟨r1, h1, h2⟩ := ih (o.calls.foldl defaultReceiver.SetBufferLength r)
      (foldl_SetBufferLength_inRange o.calls r h hcalls) (fun o1 ho1 => hall o1 (by simp [ho1]))
    refine ⟨r1, ?_, h2⟩
    simp only [applyReceiverOptions, ReceiverOption.Apply, hres]
    exact h1

theorem NewReceiver_out_of_range (d : defaultDeliverer) (location : String) (m : Int)
    (hfree : d.receiverMap.Load location = none) (hm : ¬ sizeInRange m) :
    NewReceiver d location [(ReceiveOption.mk m).toReceiverOption] = (d, Outcome.panics) := by
  simp [NewReceiver, newDefaultReceiver, hfree, applyReceiverOptions, ReceiverOption.Apply,
    ReceiveOption.toReceiverOption, defaultReceiver.SetBufferLength,
    makeChan_of_not_inRange hm]

/-- C3, counterexample: on a fresh Deliverer `NewReceiver` with
`ReceiveOption{BufferLength: -1}`, whose `Apply` returns nil, neither succeeds
nor returns the duplicate error: `make` panics and no Receiver is registered;
the same with a length of 2^60. -/
theorem NewReceiver_bad_length_panics :
    ((ReceiveOption.mk (-1)).toReceiverOption.Apply
      { location := "test", handle := none, bufferLength := defaultReceiveBufferLength }).2
      = none ∧
    (New.receiverMap.Load "test").isSome = false ∧
    (NewReceiver New "test" [(ReceiveOption.mk (-1)).toReceiverOption]).2 = Outcome.panics ∧
    ((NewReceiver New "test" [(ReceiveOption.mk (-1)).toReceiverOption]).1.receiverMap.Load
      "test").isSome = false ∧
    (NewReceiver New "test" [(ReceiveOption.mk 1152921504606846976).toReceiverOption]).2
      = Outcome.panics :=
  ⟨rfl, rfl, congrArg Prod.snd (NewReceiver_out_of_range New "test" (-1) rfl (by decide)),
    by rw [NewReceiver_out_of_range New "test" (-1) rfl (by decide)]; rfl,
    congrArg Prod.snd
      (NewReceiver_out_of_range New "test" 1152921504606846976 rfl (by decide))⟩

/-- C3, amended: `NewSender` on a location without a registered Sender, with
options that all return nil, succeeds and registers the Sender, and from then
on (after any further calls) every `NewSender` on that location fails with the
duplicate-location error; on a location with a registered Sender it fails with
that error whatever the options.  The same holds for `NewReceiver` and the
registered Receivers when its options return nil and every buffer length they
set passes the range check of `make`. -/
theorem NewSender_NewReceiver_duplicate (d : defaultDeliverer) (location : String)
    (options : List SenderOption) (roptions : List ReceiverOption)
    (hs : ∀ o ∈ options, o.Apply { location := location } = none)
    (hr : ∀ o ∈ roptions, o.result = none ∧ ∀ n ∈ o.calls, sizeInRange n) :
    (d.senderMap.Load location = none →
      (NewSender d location options).2 = (some { location := location }, none) ∧
      (NewSender d location options).1.senderMap.Load location
        = some { location := location } ∧
      ∀ (calls : List Call) (options2 : List SenderOption),
        NewSender (run (NewSender d location options).1 calls) location options2
          = (run (NewSender d location options).1 calls, none,
              some (Error.senderExists location))) ∧
    ((d.senderMap.Load location).isSome →
      ∀ options2 : List SenderOption,
        NewSender d location options2 = (d, none, some (Error.senderExists location))) ∧
    (d.receiverMap.Load location = none →
      ∃ receiver : defaultReceiver,
        (NewReceiver d location roptions).2 = Outcome.returns (some receiver, none) ∧
        ((NewReceiver d location roptions).1.receiverMap.Load location).isSome ∧
        ∀ (calls : List Call) (options2 : List ReceiverOption),
          NewReceiver (run (NewReceiver d location roptions).1 calls) location options2
            = (run (NewReceiver d location roptions).1 calls,
                Outcome.returns (none, some (Error.receiverExists location)))) ∧
    ((d.receiverMap.Load location).isSome →
      ∀ options2 : List ReceiverOption,
        NewReceiver d location options2
          = (d, Outcome.returns (none, some (Error.receiverExists location)))) := by
  refine ⟨?_, ?_, ?_, ?_⟩
  · intro hfree
    have hnew := NewSender_fresh d location options hfree hs
    have hreg : ((NewSender d location options).1.senderMap.Load location).isSome := by
      rw [hnew]; simp
    refine ⟨by rw [hnew], by rw [hnew]; simp, ?_⟩
    intro calls options2
    exact NewSender_registered _ location options2
      (run_sender_registered calls location _ hreg)
  · intro h options2
    exact NewSender_registered d location options2 h
  · intro hfree
    obtain ⟨receiver, hopt, hlen⟩ := applyReceiverOptions_ok roptions
      { location := location, handle := none, bufferLength := defaultReceiveBufferLength }
      sizeInRange_default hr
    have hnew := NewReceiver_fresh d location roptions receiver hfree hopt hlen
    have hreg : ((NewReceiver d location roptions).1.receiverMap.Load location).isSome := by
      rw [hnew]; simp
    refine ⟨receiver, by rw [hnew], hreg, ?_⟩
    intro calls options2
    exact NewReceiver_registered _ location options2
      (run_receiver_registered calls location _ hreg)
  · intro h options2
    exact NewReceiver_registered d location options2 h

/-- Witness for C3 (amended): `NewSender("test")` and `NewReceiver("test")` with
a `ReceiveOption` of length 3 on a fresh Deliverer, then each one again. -/
theorem NewSender_NewReceiver_duplicate_witness :
    (NewSender New "test" []).2 = (some { location := "test" }, none) ∧
    (NewSender (NewSender New "test" []).1 "test" []).2.2
      = some (Error.senderExists "test") ∧
    (NewReceiver (NewReceiver New "test" [(ReceiveOption.mk 3).toReceiverOption]).1
        "test" []).2
      = Outcome.returns (none, some (Error.receiverExists "test")) :=
  have h := NewSender_NewReceiver_duplicate New "test" []
    [(ReceiveOption.mk 3).toReceiverOption]
    (fun _ ho => absurd ho (List.not_mem_nil _))
    (by
      intro o ho
      simp only [List.mem_singleton] at ho
      subst ho
      refine ⟨rfl, ?_⟩
      intro n hn
      simp only [ReceiveOption.toReceiverOption, List.mem_singleton] at hn
      subst hn
      decide)
  ⟨(h.1 rfl).1, congrArg (fun p => p.2.2) ((h.1 rfl).2.2 [] []), by
    obtain ⟨_, _, _, h3⟩ := h.2.2.1 rfl
    exact congrArg Prod.snd (h3 [] [])⟩

/-! ## C4: the counterpart is missing -/

/-- C4: `SendTo` on a location without a registered Receiver returns the
no-corresponding-receiver error and leaves the state as it was; `ToReceive` on
a location without a registered Sender returns `(nil, no-corresponding-sender)`
and leaves the state as it was, whatever the Transport holds. -/
theorem SendTo_ToReceive_no_counterpart (d : defaultDeliverer) (location : String)
    (i : Value) :
    (d.receiverMap.Load location = none →
      defaultSender.SendTo d location i
        = (d, Outcome.returns (some (Error.noReceiver location)))) ∧
    (d.senderMap.Load location = none →
      defaultReceiver.ToReceive d location
        = (d, Outcome.returns (Value.nil, some (Error.noSender location)))) := by
  constructor
  · intro h
    simp [defaultSender.SendTo, h]
  · intro h
    simp [defaultReceiver.ToReceive, h]

/-- Witness for C4: a Receiver alone whose Transport already holds a value, and
a Sender alone. -/
theorem SendTo_ToReceive_no_counterpart_witness :
    transport (defaultSender.SendTo (NewReceiver New "test" []).1 "test" (Value.str "m")).1
        "test"
      = some { cap := 5, buf := [Value.str "m"], closed := false } ∧
    (defaultReceiver.ToReceive
        (defaultSender.SendTo (NewReceiver New "test" []).1 "test" (Value.str "m")).1
        "test").2
      = Outcome.returns (Value.nil, some (Error.noSender "test")) ∧
    (defaultSender.SendTo (NewSender New "test" []).1 "test" (Value.str "m")).2
      = Outcome.returns (some (Error.noReceiver "test")) :=
  ⟨by decide,
    congrArg Prod.snd ((SendTo_ToReceive_no_counterpart
      (defaultSender.SendTo (NewReceiver New "test" []).1 "test" (Value.str "m")).1
      "test" Value.nil).2 rfl),
    congrArg Prod.snd ((SendTo_ToReceive_no_counterpart
      (NewSender New "test" []).1 "test" (Value.str "m")).1 rfl)⟩

/-! ## C5, C6: the synchronous call -/

/-- C5: when the Receiver registered at the location holds handler `h` in its
slot, `SyncSendTo v` ends exactly as `h v` does (same result, same error); and
right after `ToSyncReceive h2` on a registered Receiver, `SyncSendTo v` ends
exactly as `h2 v` does. -/
theorem SyncSendTo_returns_handler (d : defaultDeliverer) (location : String)
    (receiver : defaultReceiver) (h : Value → Outcome (Value × Option Error)) (v : Value)
    (hr : d.receiverMap.Load location = some receiver) (hh : receiver.handle = some h) :
    defaultSender.SyncSendTo d location v = h v ∧
    ∀ h2 : Value → Outcome (Value × Option Error),
      defaultSender.SyncSendTo (defaultReceiver.ToSyncReceive d location (some h2)) location v
        = h2 v := by
  constructor
  · simp [defaultSender.SyncSendTo, defaultReceiver.syncProcess, hr, hh]
  · intro h2
    simp [defaultSender.SyncSendTo, defaultReceiver.syncProcess,
      defaultReceiver.ToSyncReceive, hr]

/-- Witness for C5: the handler of `TestSync`, which answers "complete". -/
theorem SyncSendTo_returns_handler_witness :
    defaultSender.SyncSendTo
        (defaultReceiver.ToSyncReceive testPaired "test"
          (some (fun _ => Outcome.returns (Value.str "complete", none))))
        "test" (Value.str "test msg")
      = Outcome.returns (Value.str "complete", none) :=
  (SyncSendTo_returns_handler
    (defaultReceiver.ToSyncReceive testPaired "test"
      (some (fun _ => Outcome.returns (Value.str "complete", none))))
    "test"
    { location := "test"
      handle := some (fun _ => Outcome.returns (Value.str "complete", none))
      bufferLength := 5 }
    (fun _ => Outcome.returns (Value.str "complete", none)) (Value.str "test msg")
    rfl rfl).1

/-- C6 (the code departs from it): on the state of `TestSync` before its
`ToSyncReceive` line, a Receiver is registered and its handler slot is still
nil, and `SyncSendTo` panics on the nil func instead of returning an error;
with no Receiver registered at all it does return the no-corresponding-receiver
error. -/
theorem SyncSendTo_nil_handler_panics :
    (∀ v : Value, defaultSender.SyncSendTo testPaired "test" v = Outcome.panics) ∧
    (∀ v : Value, defaultSender.SyncSendTo (NewSender New "test" []).1 "test" v
      = Outcome.returns (Value.nil, some (Error.noReceiver "test"))) :=
  ⟨fun _ => rfl, fun _ => rfl⟩

/-! ## C7 to C10: after `DeleteLocation` -/

theorem DeleteLocation_chanMap_self (d : defaultDeliverer) (location : String) :
    (DeleteLocation d location).1.chanMap.Load location = none := by
  simp [DeleteLocation_chanMap]

theorem DeleteLocation_buf (d : defaultDeliverer) (location : String) (r : Nat) :
    ((DeleteLocation d location).1.heap r).buf = (d.heap r).buf := by
  unfold DeleteLocation
  split
  · rfl
  · split
    · rfl
    · rename_i ch _ _ _
      by_cases hr : r = ch
      · subst hr; simp
      · simp [setChan_of_ne _ _ hr]

theorem DeleteLocation_closed (d : defaultDeliverer) (location : String) (ch : Nat)
    (hc : d.chanMap.Load location = some ch) :
    ((DeleteLocation d location).1.heap ch).closed = true := by
  have h1 : d.chanMap.LoadAndDelete location = (some ch, (d.chanMap.LoadAndDelete location).2) := by
    rw [← hc]; rfl
  unfold DeleteLocation
  rw [h1]
  by_cases hcl : (d.heap ch).closed = true
  · simp [hcl]
  · simp [hcl]

theorem ToReceive_transport_gone (d : defaultDeliverer) (location : String)
    (hc : d.chanMap.Load location = none) :
    defaultReceiver.ToReceive d location =
      (d, if (d.senderMap.Load location).isSome
          then Outcome.returns (Value.nil, some ErrLocationDeleted)
          else Outcome.returns (Value.nil, some (Error.noSender location))) := by
  unfold defaultReceiver.ToReceive
  split
  · rename_i h; simp [h]
  · rename_i s h; simp [h, hc]

theorem SendTo_transport_gone (d : defaultDeliverer) (location : String) (i : Value)
    (hr : (d.receiverMap.Load location).isSome) (hc : d.chanMap.Load location = none) :
    defaultSender.SendTo d location i = (d, Outcome.returns (some ErrLocationDeleted)) := by
  obtain ⟨r, hr1⟩ := Option.isSome_iff_exists.mp hr
  simp [defaultSender.SendTo, hr1, hc]

theorem receiveN_transport_gone (location : String) (n : Nat) (d : defaultDeliverer)
    (hs : (d.senderMap.Load location).isSome) (hc : d.chanMap.Load location = none) :
    receiveN d location n
      = (d, List.replicate n (Outcome.returns (Value.nil, some ErrLocationDeleted))) := by
  induction n with
  | zero => rfl
  | succ n ih =>
    have hstep := ToReceive_transport_gone d location hc
    simp only [hs, if_true] at hstep
    simp only [receiveN, hstep, ih, List.replicate_succ]

/-- C7, counterexample: a Receiver registered alone, then `DeleteLocation`; the
next `ToReceive` returns the no-corresponding-sender error, not
`ErrLocationDeleted`. -/
theorem ToReceive_after_DeleteLocation_no_sender :
    (New.senderMap.Load "test").isSome = false ∧
    (defaultReceiver.ToReceive
        (DeleteLocation (NewReceiver New "test" []).1 "test").1 "test").2
      = Outcome.returns (Value.nil, some (Error.noSender "test")) ∧
    (defaultReceiver.ToReceive
        (DeleteLocation (NewReceiver New "test" []).1 "test").1 "test").2
      ≠ Outcome.returns (Value.nil, some ErrLocationDeleted) := by
  decide

/-- C7, amended: once a Receiver is registered at a location and
`DeleteLocation` has run on it, every later `ToReceive` there (after any
further calls) returns an error and changes nothing: `ErrLocationDeleted` when
a Sender is registered at the location, the no-corresponding-sender error when
none is. -/
theorem ToReceive_after_DeleteLocation (d : defaultDeliverer) (location : String)
    (calls : List Call) (hr : (d.receiverMap.Load location).isSome) :
    defaultReceiver.ToReceive (run (DeleteLocation d location).1 calls) location =
      (run (DeleteLocation d location).1 calls,
        if ((run (DeleteLocation d location).1 calls).senderMap.Load location).isSome
        then Outcome.returns (Value.nil, some ErrLocationDeleted)
        else Outcome.returns (Value.nil, some (Error.noSender location))) := by
  apply ToReceive_transport_gone
  apply run_transport_gone
  · rw [(DeleteLocation_maps d location).2.1]; exact hr
  · exact DeleteLocation_chanMap_self d location

/-- Witness for C7 (amended): the paired state of `TestNew`, deleted, followed
by a send and a second registration attempt. -/
theorem ToReceive_after_DeleteLocation_witness :
    (defaultReceiver.ToReceive
        (run (DeleteLocation testPaired "test").1
          [Call.SendTo "test" (Value.str "m"), Call.NewReceiver "test" []]) "test").2
      = Outcome.returns (Value.nil, some ErrLocationDeleted) :=
  (congrArg Prod.snd (ToReceive_after_DeleteLocation testPaired "test"
    [Call.SendTo "test" (Value.str "m"), Call.NewReceiver "test" []] (by decide))).trans
    (by decide)

/-- C8 (the code departs from it): on the paired state of `TestNew` the
Transport of "test" is channel 0 and is empty, so a `ToReceive` passes the
registry checks and blocks on channel 0; once `DeleteLocation` has closed that
channel, the receive of the waiting call yields the zero value and the call
returns `(nil, nil)`, not `ErrLocationDeleted`. -/
theorem ToReceive_blocked_then_closed_returns_nil_nil :
    testPaired.chanMap.Load "test" = some 0 ∧
    (defaultReceiver.ToReceive testPaired "test").2 = Outcome.blocks ∧
    ((DeleteLocation testPaired "test").1.heap 0).closed = true ∧
    (defaultReceiver.ToReceive_TransportChan (DeleteLocation testPaired "test").1 0).2
      = Outcome.returns (Value.nil, none) := by
  decide

/-- C9, counterexample: one value is queued on the paired state of `TestNew`
when `DeleteLocation` runs; the next `ToReceive` returns
`(nil, ErrLocationDeleted)`, not the queued value. -/
theorem ToReceive_after_DeleteLocation_not_drained :
    transport (defaultSender.SendTo testPaired "test" (Value.str "m")).1 "test"
      = some { cap := 5, buf := [Value.str "m"], closed := false } ∧
    (defaultReceiver.ToReceive
        (DeleteLocation (defaultSender.SendTo testPaired "test" (Value.str "m")).1
          "test").1 "test").2
      = Outcome.returns (Value.nil, some ErrLocationDeleted) ∧
    (defaultReceiver.ToReceive
        (DeleteLocation (defaultSender.SendTo testPaired "test" (Value.str "m")).1
          "test").1 "test").2
      ≠ Outcome.returns (Value.str "m", none) := by
  decide

/-- C9, amended: values still queued in a Transport when `DeleteLocation`
removes and closes it are never delivered to later `ToReceive` calls: with a
Sender registered, any number of `ToReceive` calls after the deletion all
return `(nil, ErrLocationDeleted)` and change nothing, and the queued values
are still sitting in the closed channel object, which the registry no longer
refers to. -/
theorem ToReceive_after_DeleteLocation_queued (d : defaultDeliverer) (location : String)
    (ch n : Nat) (hs : (d.senderMap.Load location).isSome)
    (hc : d.chanMap.Load location = some ch) :
    receiveN (DeleteLocation d location).1 location n
      = ((DeleteLocation d location).1,
          List.replicate n (Outcome.returns (Value.nil, some ErrLocationDeleted))) ∧
    (DeleteLocation d location).1.chanMap.Load location = none ∧
    ((DeleteLocation d location).1.heap ch).closed = true ∧
    ((DeleteLocation d location).1.heap ch).buf = (d.heap ch).buf := by
  refine ⟨?_, DeleteLocation_chanMap_self d location, DeleteLocation_closed d location ch hc,
    DeleteLocation_buf d location ch⟩
  apply receiveN_transport_gone
  · rw [(DeleteLocation_maps d location).1]; exact hs
  · exact DeleteLocation_chanMap_self d location

/-- Witness for C9 (amended): two values queued on the paired state of
`TestNew`, then the deletion and two receives. -/
theorem ToReceive_after_DeleteLocation_queued_witness :
    (receiveN
        (DeleteLocation (sendAll testPaired "test" [Value.int 1, Value.int 2]).1 "test").1
        "test" 2).2
      = [Outcome.returns (Value.nil, some ErrLocationDeleted),
          Outcome.returns (Value.nil, some ErrLocationDeleted)] ∧
    ((DeleteLocation (sendAll testPaired "test" [Value.int 1, Value.int 2]).1 "test").1.heap
        0).buf = [Value.int 1, Value.int 2] :=
  have h := ToReceive_after_DeleteLocation_queued
    (sendAll testPaired "test" [Value.int 1, Value.int 2]).1 "test" 0 2
    (by decide) (by decide)
  ⟨congrArg Prod.snd h.1, h.2.2.2.trans (by decide)⟩

/-- C10: once a Receiver is registered at a location and `DeleteLocation` has
run on it, every later `SendTo` there (after any further calls, for any value,
however full the Transport was) returns `ErrLocationDeleted` and leaves the
state, and so every queue, as it was. -/
theorem SendTo_after_DeleteLocation (d : defaultDeliverer) (location : String)
    (calls : List Call) (v : Value) (hr : (d.receiverMap.Load location).isSome) :
    defaultSender.SendTo (run (DeleteLocation d location).1 calls) location v
      = (run (DeleteLocation d location).1 calls, Outcome.returns (some ErrLocationDeleted)) := by
  apply SendTo_transport_gone
  · apply run_receiver_registered
    rw [(DeleteLocation_maps d location).2.1]; exact hr
  · apply run_transport_gone
    · rw [(DeleteLocation_maps d location).2.1]; exact hr
    · exact DeleteLocation_chanMap_self d location

/-- Witness for C10: the paired state of `TestNew` with a full buffer, deleted. -/
theorem SendTo_after_DeleteLocation_witness :
    (defaultSender.SendTo
        (run (DeleteLocation
          (sendAll testPaired "test" (List.replicate 5 (Value.int 0))).1 "test").1
          [Call.ToReceive "test"]) "test" (Value.str "m")).2
      = Outcome.returns (some ErrLocationDeleted) :=
  congrArg Prod.snd (SendTo_after_DeleteLocation
    (sendAll testPaired "test" (List.replicate 5 (Value.int 0))).1 "test"
    [Call.ToReceive "test"] (Value.str "m") (by decide))

/-! ## C11, C12: `DeleteLocation` is idempotent and keeps the registrations -/

theorem DeleteLocation_of_none (d : defaultDeliverer) (location : String)
    (h : d.chanMap.Load location = none) :
    DeleteLocation d location = (d, Outcome.returns ()) := by
  have h1 : d.chanMap.LoadAndDelete location
      = (none, (d.chanMap.LoadAndDelete location).2) := by
    rw [← h]; rfl
  unfold DeleteLocation
  rw [h1]

theorem DeleteLocation_cap (d : defaultDeliverer) (location : String) (r : Nat) :
    ((DeleteLocation d location).1.heap r).cap = (d.heap r).cap := by
  unfold DeleteLocation
  split
  · rfl
  · split
    · rfl
    · rename_i ch _ _ _
      by_cases hr : r = ch
      · subst hr; simp
      · simp [setChan_of_ne _ _ hr]

/-- C11: a second `DeleteLocation` on the same location returns normally and
leaves exactly the state the first one left; and `DeleteLocation` on a location
that has no Transport entry (never registered, or already deleted) returns
normally and leaves the state unchanged. -/
theorem DeleteLocation_idempotent (d : defaultDeliverer) (location : String) :
    DeleteLocation (DeleteLocation d location).1 location
      = ((DeleteLocation d location).1, Outcome.returns ()) ∧
    (d.chanMap.Load location = none →
      DeleteLocation d location = (d, Outcome.returns ())) :=
  ⟨DeleteLocation_of_none _ location (DeleteLocation_chanMap_self d location),
    DeleteLocation_of_none d location⟩

/-- Witness for C11: a location that was never registered. -/
theorem DeleteLocation_idempotent_witness :
    New.chanMap.Load "test" = none ∧
    (DeleteLocation New "test").2 = Outcome.returns () :=
  ⟨rfl, congrArg Prod.snd ((DeleteLocation_idempotent New "test").2 rfl)⟩

/-- C12: `DeleteLocation` leaves the Sender registry, the Receiver registry
(handler slots included), the Transport entries of the other locations, the
allocation counter and every channel's capacity and buffered values as they
were; so after it `NewSender` still fails with the duplicate-location error
where a Sender was registered, and `NewReceiver` where a Receiver was. -/
theorem DeleteLocation_keeps_registrations (d : defaultDeliverer) (location : String) :
    (DeleteLocation d location).1.senderMap = d.senderMap ∧
    (DeleteLocation d location).1.receiverMap = d.receiverMap ∧
    (∀ k : String, k ≠ location →
      (DeleteLocation d location).1.chanMap.Load k = d.chanMap.Load k) ∧
    (DeleteLocation d location).1.nextChan = d.nextChan ∧
    (∀ r : Nat, ((DeleteLocation d location).1.heap r).cap = (d.heap r).cap ∧
      ((DeleteLocation d location).1.heap r).buf = (d.heap r).buf) ∧
    ((d.senderMap.Load location).isSome →
      ∀ options : List SenderOption,
        NewSender (DeleteLocation d location).1 location options
          = ((DeleteLocation d location).1, none, some (Error.senderExists location))) ∧
    ((d.receiverMap.Load location).isSome →
      ∀ options : List ReceiverOption,
        NewReceiver (DeleteLocation d location).1 location options
          = ((DeleteLocation d location).1,
              Outcome.returns (none, some (Error.receiverExists location)))) := by
  obtain ⟨hs, hr, hn⟩ := DeleteLocation_maps d location
  refine ⟨hs, hr, ?_, hn, ?_, ?_, ?_⟩
  · intro k hk
    simp [DeleteLocation_chanMap, hk]
  · intro r
    exact ⟨DeleteLocation_cap d location r, DeleteLocation_buf d location r⟩
  · intro h options
    exact NewSender_registered _ location options (by rw [hs]; exact h)
  · intro h options
    exact NewReceiver_registered _ location options (by rw [hr]; exact h)

/-- Witness for C12: the paired state of `TestNew`, deleted, then both
registrations attempted again. -/
theorem DeleteLocation_keeps_registrations_witness :
    (NewSender (DeleteLocation testPaired "test").1 "test" []).2
      = (none, some (Error.senderExists "test")) ∧
    (NewReceiver (DeleteLocation testPaired "test").1 "test" []).2
      = Outcome.returns (none, some (Error.receiverExists "test")) :=
  have h := DeleteLocation_keeps_registrations testPaired "test"
  ⟨congrArg Prod.snd (h.2.2.2.2.2.1 (by decide) []),
    congrArg Prod.snd (h.2.2.2.2.2.2 (by decide) [])⟩

/-! ## C14, C15: the handler slot and the synchronous call -/

theorem SyncMap.Store_Store {α : Type} (m : SyncMap α) (key : String) (a b : α) :
    (m.Store key a).Store key b = m.Store key b := by
  simp only [SyncMap.Store, SyncMap.mk.injEq]
  funext k
  by_cases hk : k = key <;> simp [hk]

theorem SyncSendTo_of_handle (d : defaultDeliverer) (location : String)
    (receiver : defaultReceiver) (h : Value → Outcome (Value × Option Error)) (v : Value)
    (hr : d.receiverMap.Load location = some receiver) (hh : receiver.handle = some h) :
    defaultSender.SyncSendTo d location v = h v := by
  simp [defaultSender.SyncSendTo, defaultReceiver.syncProcess, hr, hh]

theorem sendAll_maps (location : String) (vs : List Value) :
    ∀ d : defaultDeliverer,
      (sendAll d location vs).1.senderMap = d.senderMap ∧
      (sendAll d location vs).1.receiverMap = d.receiverMap ∧
      (sendAll d location vs).1.chanMap = d.chanMap ∧
      (sendAll d location vs).1.nextChan = d.nextChan := by
  induction vs with
  | nil => intro d; simp [sendAll]
  | cons v vs ih =>
    intro d
    obtain ⟨h1, h2, h3, h4⟩ := ih (defaultSender.SendTo d location v).1
    obtain ⟨g1, g2, g3, g4⟩ := SendTo_maps d location v
    simp only [sendAll]
    exact ⟨h1.trans g1, h2.trans g2, h3.trans g3, h4.trans g4⟩

/-- C14: on a registered Receiver, after `ToSyncReceive h1` and then
`ToSyncReceive h2` a `SyncSendTo v` ends exactly as `h2 v` does, whatever `h1`
is (also an `h1` that would panic or block if it were called); and registering
the same handler twice leaves the same state as registering it once. -/
theorem ToSyncReceive_last_writer_wins (d : defaultDeliverer) (location : String)
    (h1 h2 : Value → Outcome (Value × Option Error)) (handle : ReceiveHandle) (v : Value)
    (hr : (d.receiverMap.Load location).isSome) :
    defaultSender.SyncSendTo
        (defaultReceiver.ToSyncReceive
          (defaultReceiver.ToSyncReceive d location (some h1)) location (some h2))
        location v
      = h2 v ∧
    defaultReceiver.ToSyncReceive (defaultReceiver.ToSyncReceive d location handle)
        location handle
      = defaultReceiver.ToSyncReceive d location handle := by
  obtain ⟨r, hr1⟩ := Option.isSome_iff_exists.mp hr
  constructor
  · simp [defaultSender.SyncSendTo, defaultReceiver.syncProcess,
      defaultReceiver.ToSyncReceive, hr1]
  · simp [defaultReceiver.ToSyncReceive, hr1, SyncMap.Store_Store]

/-- Witness for C14: on the paired state of `TestSync`, a first handler that
would panic is replaced by the handler that answers "complete". -/
theorem ToSyncReceive_last_writer_wins_witness :
    defaultSender.SyncSendTo
        (defaultReceiver.ToSyncReceive
          (defaultReceiver.ToSyncReceive testPaired "test" (some (fun _ => Outcome.panics)))
          "test" (some (fun _ => Outcome.returns (Value.str "complete", none))))
        "test" (Value.str "test msg")
      = Outcome.returns (Value.str "complete", none) :=
  (ToSyncReceive_last_writer_wins testPaired "test" (fun _ => Outcome.panics)
    (fun _ => Outcome.returns (Value.str "complete", none)) none (Value.str "test msg")
    (by decide)).1

/-- C15: `SyncSendTo` leaves the state (the Transport mapping and every queue)
as it was, and its outcome is the same whatever the Transport mapping, the
channel objects and the allocation counter are; with handler `h` in the slot of
the registered Receiver it ends as `h v` does also after any number of sends
(so also on a full Transport) and after `DeleteLocation`. -/
theorem SyncSendTo_bypasses_transport (d : defaultDeliverer) (location : String)
    (receiver : defaultReceiver) (h : Value → Outcome (Value × Option Error)) (v : Value)
    (vs : List Value) (chanMap : SyncMap Nat) (heap : Nat → Chan) (nextChan : Nat)
    (hr : d.receiverMap.Load location = some receiver) (hh : receiver.handle = some h) :
    exec d (Call.SyncSendTo location v) = d ∧
    defaultSender.SyncSendTo
        { d with chanMap := chanMap, heap := heap, nextChan := nextChan } location v
      = defaultSender.SyncSendTo d location v ∧
    defaultSender.SyncSendTo (sendAll d location vs).1 location v = h v ∧
    defaultSender.SyncSendTo (DeleteLocation d location).1 location v = h v := by
  refine ⟨rfl, rfl, ?_, ?_⟩
  · exact SyncSendTo_of_handle _ location receiver h v
      (by rw [(sendAll_maps location vs d).2.1]; exact hr) hh
  · exact SyncSendTo_of_handle _ location receiver h v
      (by rw [(DeleteLocation_maps d location).2.1]; exact hr) hh

/-- Witness for C15: the state of `TestSync` with its handler registered; the
Transport is filled with five values, and separately deleted. -/
theorem SyncSendTo_bypasses_transport_witness :
    (sendAll
        (defaultReceiver.ToSyncReceive testPaired "test"
          (some (fun _ => Outcome.returns (Value.str "complete", none))))
        "test" (List.replicate 6 (Value.int 0))).2.getLast?
      = some (Outcome.returns (some ErrReceiverBufferFulled)) ∧
    defaultSender.SyncSendTo
        (sendAll
          (defaultReceiver.ToSyncReceive testPaired "test"
            (some (fun _ => Outcome.returns (Value.str "complete", none))))
          "test" (List.replicate 6 (Value.int 0))).1
        "test" (Value.str "test msg")
      = Outcome.returns (Value.str "complete", none) ∧
    defaultSender.SyncSendTo
        (DeleteLocation
          (defaultReceiver.ToSyncReceive testPaired "test"
            (some (fun _ => Outcome.returns (Value.str "complete", none))))
          "test").1
        "test" (Value.str "test msg")
      = Outcome.returns (Value.str "complete", none) :=
  have h := SyncSendTo_bypasses_transport
    (defaultReceiver.ToSyncReceive testPaired "test"
      (some (fun _ => Outcome.returns (Value.str "complete", none))))
    "test"
    { location := "test"
      handle := some (fun _ => Outcome.returns (Value.str "complete", none))
      bufferLength := 5 }
    (fun _ => Outcome.returns (Value.str "complete", none)) (Value.str "test msg")
    (List.replicate 6 (Value.int 0)) SyncMap.empty (fun _ => { cap := 0, buf := [], closed := false }) 0
    rfl rfl
  ⟨by decide, h.2.2.1, h.2.2.2⟩

/-! ## C18, C20: order of registration, failed registrations -/

theorem NewSender_eq (d : defaultDeliverer) (location : String) (options : List SenderOption) :
    NewSender d location options
      = ({ d with senderMap := (NewSender d location options).1.senderMap },
          (NewSender d location options).2) := by
  unfold NewSender
  split
  · rfl
  · split <;> rfl

theorem NewSender_congr (d e : defaultDeliverer) (location : String)
    (options : List SenderOption) (h : e.senderMap = d.senderMap) :
    (NewSender e location options).2 = (NewSender d location options).2 ∧
    (NewSender e location options).1.senderMap = (NewSender d location options).1.senderMap := by
  unfold NewSender
  rw [h]
  split
  · exact ⟨rfl, h⟩
  · split
    · simp [h]
    · exact ⟨rfl, h⟩
    · exact ⟨rfl, h⟩

theorem NewReceiver_congr (d : defaultDeliverer) (senderMap : SyncMap defaultSender)
    (location : String) (options : List ReceiverOption) :
    NewReceiver { d with senderMap := senderMap } location options
      = ({ (NewReceiver d location options).1 with senderMap := senderMap },
          (NewReceiver d location options).2) := by
  unfold NewReceiver newDefaultReceiver
  cases h1 : d.receiverMap.Load location with
  | some r => simp [h1]
  | none =>
    simp only [h1]
    rcases h2 : applyReceiverOptions
      { location := location, handle := none, bufferLength := defaultReceiveBufferLength }
      options with ⟨r, _ | err⟩
    · cases h3 : makeChan r.bufferLength <;> simp [h3]
    · simp

/-- C18: for every state and location, `NewSender` then `NewReceiver` gives
the same result of `NewSender`, the same result of `NewReceiver` and the same
final state as `NewReceiver` then `NewSender` (whatever the options). -/
theorem NewSender_NewReceiver_commute (d : defaultDeliverer) (location : String)
    (options : List SenderOption) (roptions : List ReceiverOption) :
    (NewSender (NewReceiver d location roptions).1 location options).2
      = (NewSender d location options).2 ∧
    (NewReceiver (NewSender d location options).1 location roptions).2
      = (NewReceiver d location roptions).2 ∧
    (NewReceiver (NewSender d location options).1 location roptions).1
      = (NewSender (NewReceiver d location roptions).1 location options).1 := by
  have hs := NewSender_congr d (NewReceiver d location roptions).1 location options
    (NewReceiver_senderMap d location roptions)
  have h1 := NewSender_eq d location options
  have h2 := NewSender_eq (NewReceiver d location roptions).1 location options
  have h3 := NewReceiver_congr d (NewSender d location options).1.senderMap location roptions
  refine ⟨hs.1, ?_, ?_⟩
  · rw [h1]; simp only; rw [h3]
  · rw [h2]; simp only [hs.2]
    rw [h1]; simp only; rw [h3]

theorem applySenderOptions_first_error (sender : defaultSender)
    (pre post : List SenderOption) (o : SenderOption) (err : Error)
    (hpre : ∀ p ∈ pre, p.Apply sender = none) (ho : o.Apply sender = some err) :
    applySenderOptions sender (pre ++ o :: post) = some err := by
  induction pre with
  | nil => simp [applySenderOptions, ho]
  | cons p rest ih =>
    have hp : p.Apply sender = none := hpre p (by simp)
    simp only [List.cons_append, applySenderOptions, hp]
    exact ih (fun q hq => hpre q (by simp [hq]))

theorem applySenderOptions_of_failing (sender : defaultSender) (options : List SenderOption)
    (o : SenderOption) (hmem : o ∈ options) (ho : (o.Apply sender).isSome) :
    (applySenderOptions sender options).isSome := by
  induction options with
  | nil => simp at hmem
  | cons p rest ih =>
    cases hp : p.Apply sender with
    | some e => simp [applySenderOptions, hp]
    | none =>
      simp only [applySenderOptions, hp]
      rcases List.mem_cons.mp hmem with h | h
      · subst h; rw [hp] at ho; simp at ho
      · exact ih h

theorem applyReceiverOptions_first_error (pre post : List ReceiverOption)
    (o : ReceiverOption) (err : Error)
    (hpre : ∀ p ∈ pre, ∀ r : defaultReceiver, (p.Apply r).2 = none)
    (ho : ∀ r : defaultReceiver, (o.Apply r).2 = some err) :
    ∀ r : defaultReceiver, (applyReceiverOptions r (pre ++ o :: post)).2 = some err := by
  induction pre with
  | nil =>
    intro r
    have h := ho r
    simp only [ReceiverOption.Apply] at h
    simp [applyReceiverOptions, ReceiverOption.Apply, h]
  | cons p rest ih =>
    intro r
    have hp := hpre p (by simp) r
    simp only [ReceiverOption.Apply] at hp
    simp only [List.cons_append, applyReceiverOptions, ReceiverOption.Apply, hp]
    exact ih (fun q hq => hpre q (by simp [hq])) _

theorem applyReceiverOptions_of_failing (options : List ReceiverOption) (o : ReceiverOption)
    (hmem : o ∈ options) (ho : ∀ r : defaultReceiver, ((o.Apply r).2).isSome) :
    ∀ r : defaultReceiver, ((applyReceiverOptions r options).2).isSome := by
  induction options with
  | nil => simp at hmem
  | cons p rest ih =>
    intro r
    cases hp : p.result with
    | some e => simp [applyReceiverOptions, ReceiverOption.Apply, hp]
    | none =>
      simp only [applyReceiverOptions, ReceiverOption.Apply, hp]
      rcases List.mem_cons.mp hmem with h | h
      · subst h
        have := ho r
        simp [ReceiverOption.Apply, hp] at this
      · exact ih h _

/-- C20: a `NewSender` or `NewReceiver` that returns an error (or panics)
leaves the state exactly as it was and returns no object; a duplicate
`NewReceiver` keeps the Transport, so the queued values are received afterwards
as before; and on an unregistered location, when the `Apply` of one of the
options returns an error, the call returns an error, no object, and the state as
it was: the error of the first option whose `Apply` fails. -/
theorem failed_registration_changes_nothing (d : defaultDeliverer) (location : String)
    (options : List SenderOption) (roptions : List ReceiverOption) (n : Nat) :
    ((NewSender d location options).2.2.isSome →
      (NewSender d location options).1 = d ∧ (NewSender d location options).2.1 = none) ∧
    (∀ x err, (NewReceiver d location roptions).2 = Outcome.returns (x, some err) →
      (NewReceiver d location roptions).1 = d ∧ x = none) ∧
    ((NewReceiver d location roptions).2 = Outcome.panics →
      (NewReceiver d location roptions).1 = d) ∧
    ((d.receiverMap.Load location).isSome →
      transport (NewReceiver d location roptions).1 location = transport d location ∧
      receiveN (NewReceiver d location roptions).1 location n = receiveN d location n) ∧
    (∀ (pre post : List SenderOption) (o : SenderOption) (err : Error),
      d.senderMap.Load location = none →
      options = pre ++ o :: post →
      (∀ p ∈ pre, p.Apply { location := location } = none) →
      o.Apply { location := location } = some err →
      NewSender d location options = (d, none, some err)) ∧
    (∀ o ∈ options, d.senderMap.Load location = none →
      (o.Apply { location := location }).isSome →
      ∃ err, NewSender d location options = (d, none, some err)) ∧
    (∀ (pre post : List ReceiverOption) (o : ReceiverOption) (err : Error),
      d.receiverMap.Load location = none →
      roptions = pre ++ o :: post →
      (∀ p ∈ pre, ∀ r : defaultReceiver, (p.Apply r).2 = none) →
      (∀ r : defaultReceiver, (o.Apply r).2 = some err) →
      NewReceiver d location roptions = (d, Outcome.returns (none, some err))) ∧
    (∀ o ∈ roptions, d.receiverMap.Load location = none →
      (∀ r : defaultReceiver, ((o.Apply r).2).isSome) →
      ∃ err, NewReceiver d location roptions = (d, Outcome.returns (none, some err))) := by
  have hsend : ∀ err, d.senderMap.Load location = none →
      applySenderOptions { location := location } options = some err →
      NewSender d location options = (d, none, some err) := by
    intro err hfree hopt
    simp [NewSender, newDefaultSender, hfree, hopt]
  have hrecv : ∀ err, d.receiverMap.Load location = none →
      (applyReceiverOptions
        { location := location, handle := none, bufferLength := defaultReceiveBufferLength }
        roptions).2 = some err →
      NewReceiver d location roptions = (d, Outcome.returns (none, some err)) := by
    intro err hfree hopt
    rcases h2 : applyReceiverOptions
      { location := location, handle := none, bufferLength := defaultReceiveBufferLength }
      roptions with ⟨r, e⟩
    rw [h2] at hopt
    simp only at hopt
    subst hopt
    simp [NewReceiver, newDefaultReceiver, hfree, h2]
  refine ⟨?_, ?_, ?_, ?_, ?_, ?_, ?_, ?_⟩
  · unfold NewSender
    split
    · intro _; exact ⟨rfl, rfl⟩
    · split
      · intro h; simp at h
      · intro _; exact ⟨rfl, rfl⟩
      · intro _; exact ⟨rfl, rfl⟩
  · intro x err
    unfold NewReceiver newDefaultReceiver
    cases h1 : d.receiverMap.Load location with
    | some r => simp only [h1]; intro h; simp at h; exact ⟨trivial, h.1.symm⟩
    | none =>
      simp only [h1]
      rcases h2 : applyReceiverOptions
        { location := location, handle := none, bufferLength := defaultReceiveBufferLength }
        roptions with ⟨r, _ | e⟩
      · cases h3 : makeChan r.bufferLength <;> simp [h3]
      · simp only; intro h; simp at h; exact ⟨trivial, h.1.symm⟩
  · unfold NewReceiver newDefaultReceiver
    cases h1 : d.receiverMap.Load location with
    | some r => simp [h1]
    | none =>
      simp only [h1]
      rcases h2 : applyReceiverOptions
        { location := location, handle := none, bufferLength := defaultReceiveBufferLength }
        roptions with ⟨r, _ | e⟩
      · cases h3 : makeChan r.bufferLength <;> simp [h3]
      · simp
  · intro h
    rw [NewReceiver_registered d location roptions h]
    exact ⟨rfl, rfl⟩
  · intro pre post o err hfree hsplit hpre ho
    subst hsplit
    exact hsend err hfree (applySenderOptions_first_error _ pre post o err hpre ho)
  · intro o hmem hfree ho
    obtain ⟨err, herr⟩ := Option.isSome_iff_exists.mp
      (applySenderOptions_of_failing { location := location } options o hmem ho)
    exact ⟨err, hsend err hfree herr⟩
  · intro pre post o err hfree hsplit hpre ho
    subst hsplit
    exact hrecv err hfree (applyReceiverOptions_first_error pre post o err hpre ho _)
  · intro o hmem hfree ho
    obtain ⟨err, herr⟩ := Option.isSome_iff_exists.mp
      (applyReceiverOptions_of_failing roptions o hmem ho
        { location := location, handle := none, bufferLength := defaultReceiveBufferLength })
    exact ⟨err, hrecv err hfree herr⟩

/-- Witness for C20: on a fresh Deliverer, three options of which the second
and the third fail, for a Sender and for a Receiver: the second option's error
comes back and nothing is registered; and a duplicate `NewReceiver` on the
paired state of `TestNew` with two values queued. -/
theorem failed_registration_changes_nothing_witness :
    NewSender New "test"
        [{ Apply := fun _ => none }, { Apply := fun _ => some (Error.custom "bad option") },
          { Apply := fun _ => some (Error.custom "later") }]
      = (New, none, some (Error.custom "bad option")) ∧
    NewReceiver New "test"
        [{ calls := [3], result := none },
          { calls := [4], result := some (Error.custom "bad option") },
          { calls := [], result := some (Error.custom "later") }]
      = (New, Outcome.returns (none, some (Error.custom "bad option"))) ∧
    (receiveN
        (NewReceiver (sendAll testPaired "test" [Value.int 1, Value.int 2]).1 "test" []).1
        "test" 2).2
      = [Outcome.returns (Value.int 1, none), Outcome.returns (Value.int 2, none)] :=
  ⟨(failed_registration_changes_nothing New "test"
      [{ Apply := fun _ => none }, { Apply := fun _ => some (Error.custom "bad option") },
        { Apply := fun _ => some (Error.custom "later") }] [] 0).2.2.2.2.1
      [{ Apply := fun _ => none }] [{ Apply := fun _ => some (Error.custom "later") }]
      { Apply := fun _ => some (Error.custom "bad option") } (Error.custom "bad option")
      rfl rfl (by intro p hp; simp only [List.mem_singleton] at hp; subst hp; rfl) rfl,
    (failed_registration_changes_nothing New "test" []
      [{ calls := [3], result := none },
        { calls := [4], result := some (Error.custom "bad option") },
        { calls := [], result := some (Error.custom "later") }] 0).2.2.2.2.2.2.1
      [{ calls := [3], result := none }]
      [{ calls := [], result := some (Error.custom "later") }]
      { calls := [4], result := some (Error.custom "bad option") } (Error.custom "bad option")
      rfl rfl (by intro p hp; simp only [List.mem_singleton] at hp; subst hp; intro r; rfl)
      (fun _ => rfl),
    (congrArg Prod.snd ((failed_registration_changes_nothing
      (sendAll testPaired "test" [Value.int 1, Value.int 2]).1 "test" [] [] 2).2.2.2.1
      (by decide)).2).trans (by decide)⟩

/-! ## C13: when a Transport entry exists -/

theorem NewReceiver_chanMap (d : defaultDeliverer) (location : String)
    (options : List ReceiverOption) (k : String) :
    (NewReceiver d location options).1.chanMap.Load k
      = if k = location ∧ succeeded (NewReceiver d location options).2 = true
        then some d.nextChan else d.chanMap.Load k := by
  rcases NewReceiver_cases d location options with ⟨h1, h2⟩ | ⟨r, hfree, hopt, hlen, hret⟩
  · rw [h2]; simp [h1]
  · rw [hret, NewReceiver_fresh d location options r hfree hopt hlen]
    simp [succeeded, SyncMap.Load_Store]

theorem exec_transport_live (d : defaultDeliverer) (c : Call) (location : String) :
    ((exec d c).chanMap.Load location).isSome
      = liveAfter location d (d.chanMap.Load location).isSome c := by
  cases c with
  | NewSender l options => simp only [exec, liveAfter, (NewSender_maps d l options).2.1]
  | NewReceiver l options =>
    simp only [exec, liveAfter, NewReceiver_chanMap]
    by_cases h : l = location
    · subst h
      by_cases h2 : succeeded (NewReceiver d l options).2 = true
      · simp [h2]
      · simp [h2]
    · have h1 : ¬ location = l := fun hh => h hh.symm
      simp [h, h1]
  | DeleteLocation l =>
    simp only [exec, liveAfter, DeleteLocation_chanMap]
    by_cases h : l = location
    · subst h
      simp
    · have h1 : ¬ location = l := fun hh => h hh.symm
      simp [h, h1]
  | SendTo l i => simp only [exec, liveAfter, (SendTo_maps d l i).2.2.1]
  | SyncSendTo l i => simp only [exec, liveAfter]
  | ToReceive l => simp only [exec, liveAfter, (ToReceive_maps d l).2.2.1]
  | ToSyncReceive l handle => simp only [exec, liveAfter, (ToSyncReceive_maps d l handle).2.1]
  | SetBufferLength l len => simp only [exec, liveAfter, (SetBufferLengthAt_maps d l len).2.1]

theorem run_transport_live (location : String) (calls : List Call) :
    ∀ d : defaultDeliverer,
      ((run d calls).chanMap.Load location).isSome
        = transportExpected location d (d.chanMap.Load location).isSome calls := by
  induction calls with
  | nil => intro d; rfl
  | cons c cs ih =>
    intro d
    have h := ih (exec d c)
    rw [exec_transport_live d c location] at h
    exact h

/-- C13: after any sequence of calls from `New()`, the Transport mapping has an
entry for a location exactly when, in that sequence, a `NewReceiver` for the
location has succeeded and no `DeleteLocation` on the location came after
it. -/
theorem transport_entry_iff (calls : List Call) (location : String) :
    ((run New calls).chanMap.Load location).isSome
      = transportExpected location New false calls :=
  run_transport_live location calls New

/-! ## C16: queues stay within a capacity that never changes -/

theorem SendTo_heap (d : defaultDeliverer) (location : String) (i : Value) (r : Nat) :
    ((defaultSender.SendTo d location i).1.heap r).cap = (d.heap r).cap ∧
    ((d.heap r).buf.length ≤ (d.heap r).cap →
      ((defaultSender.SendTo d location i).1.heap r).buf.length
        ≤ ((defaultSender.SendTo d location i).1.heap r).cap) := by
  unfold defaultSender.SendTo defaultSender.sendTo
  split
  · exact ⟨rfl, id⟩
  · split
    · exact ⟨rfl, id⟩
    · rename_i ch _
      split
      · exact ⟨rfl, id⟩
      · split
        · rename_i hroom
          by_cases hr : r = ch
          · subst hr
            simp only [setChan_self, List.length_append, List.length_singleton, true_and]
            intro _; omega
          · simp only [setChan_of_ne _ _ hr, true_and]
            exact id
        · exact ⟨rfl, id⟩

theorem ToReceive_heap (d : defaultDeliverer) (location : String) (r : Nat) :
    ((defaultReceiver.ToReceive d location).1.heap r).cap = (d.heap r).cap ∧
    ((d.heap r).buf.length ≤ (d.heap r).cap →
      ((defaultReceiver.ToReceive d location).1.heap r).buf.length
        ≤ ((defaultReceiver.ToReceive d location).1.heap r).cap) := by
  unfold defaultReceiver.ToReceive
  split
  · exact ⟨rfl, id⟩
  · split
    · exact ⟨rfl, id⟩
    · rename_i ch _
      unfold defaultReceiver.ToReceive_TransportChan defaultReceiver.toReceive
      cases hb : (d.heap ch).buf with
      | nil =>
        by_cases hcl : (d.heap ch).closed = true
        · simp only [hcl, if_true]; exact ⟨trivial, id⟩
        · simp only [hcl]; exact ⟨rfl, id⟩
      | cons v rest =>
        simp only
        by_cases hr : r = ch
        · subst hr
          simp only [setChan_self, true_and, hb, List.length_cons]
          intro h; omega
        · simp only [setChan_of_ne _ _ hr, true_and]
          exact id

theorem NewReceiver_heap (d : defaultDeliverer) (location : String)
    (options : List ReceiverOption) (r : Nat) :
    (r ≠ d.nextChan → (NewReceiver d location options).1.heap r = d.heap r) ∧
    ((d.heap r).buf.length ≤ (d.heap r).cap →
      ((NewReceiver d location options).1.heap r).buf.length
        ≤ ((NewReceiver d location options).1.heap r).cap) ∧
    d.nextChan ≤ (NewReceiver d location options).1.nextChan := by
  rcases NewReceiver_cases d location options with ⟨_, h2⟩ | ⟨rcv, hfree, hopt, hlen, _⟩
  · rw [h2]; exact ⟨fun _ => rfl, id, le_refl _⟩
  · rw [NewReceiver_fresh d location options rcv hfree hopt hlen]
    refine ⟨fun hr => by simp [setChan_of_ne _ _ hr], ?_, by simp⟩
    by_cases hr : r = d.nextChan
    · subst hr; simp
    · simp only [setChan_of_ne _ _ hr]; exact id

theorem exec_heap (d : defaultDeliverer) (c : Call) (r : Nat) :
    (r < d.nextChan → ((exec d c).heap r).cap = (d.heap r).cap) ∧
    ((d.heap r).buf.length ≤ (d.heap r).cap →
      ((exec d c).heap r).buf.length ≤ ((exec d c).heap r).cap) ∧
    d.nextChan ≤ (exec d c).nextChan := by
  cases c with
  | NewSender l options =>
    obtain ⟨_, _, hh, hn⟩ := NewSender_maps d l options
    simp only [exec, hh, hn]
    exact ⟨fun _ => trivial, id, le_refl _⟩
  | NewReceiver l options =>
    obtain ⟨h1, h2, h3⟩ := NewReceiver_heap d l options r
    exact ⟨fun hr => by simp only [exec]; rw [h1 (Nat.ne_of_lt hr)], h2, h3⟩
  | DeleteLocation l =>
    simp only [exec, DeleteLocation_cap, DeleteLocation_buf, (DeleteLocation_maps d l).2.2]
    exact ⟨fun _ => trivial, id, le_refl _⟩
  | SendTo l i =>
    obtain ⟨h1, h2⟩ := SendTo_heap d l i r
    exact ⟨fun _ => h1, h2, by simp only [exec, (SendTo_maps d l i).2.2.2]; exact le_refl _⟩
  | SyncSendTo l i => exact ⟨fun _ => rfl, id, le_refl _⟩
  | ToReceive l =>
    obtain ⟨h1, h2⟩ := ToReceive_heap d l r
    exact ⟨fun _ => h1, h2, by simp only [exec, (ToReceive_maps d l).2.2.2]; exact le_refl _⟩
  | ToSyncReceive l handle =>
    obtain ⟨_, _, hh, hn⟩ := ToSyncReceive_maps d l handle
    simp only [exec, hh, hn]
    exact ⟨fun _ => trivial, id, le_refl _⟩
  | SetBufferLength l len =>
    obtain ⟨_, _, hh, hn⟩ := SetBufferLengthAt_maps d l len
    simp only [exec, hh, hn]
    exact ⟨fun _ => trivial, id, le_refl _⟩

theorem run_queuesBounded (calls : List Call) :
    ∀ d : defaultDeliverer, queuesBounded d → queuesBounded (run d calls) := by
  induction calls with
  | nil => intro d h; exact h
  | cons c cs ih =>
    intro d h
    exact ih (exec d c) (fun r => (exec_heap d c r).2.1 (h r))

theorem run_cap (calls : List Call) (r : Nat) :
    ∀ d : defaultDeliverer, r < d.nextChan →
      ((run d calls).heap r).cap = (d.heap r).cap := by
  induction calls with
  | nil => intro d _; rfl
  | cons c cs ih =>
    intro d hr
    obtain ⟨h1, _, h3⟩ := exec_heap d c r
    have := ih (exec d c) (Nat.lt_of_lt_of_le hr h3)
    exact this.trans (h1 hr)

theorem exec_chanMap_registered (d : defaultDeliverer) (c : Call) (k : String)
    (hr : (d.receiverMap.Load k).isSome) :
    (exec d c).chanMap.Load k = d.chanMap.Load k ∨ (exec d c).chanMap.Load k = none := by
  cases c with
  | NewSender l options => left; simp only [exec, (NewSender_maps d l options).2.1]
  | NewReceiver l options =>
    left
    by_cases hk : k = l
    · subst hk
      simp only [exec, NewReceiver_registered d k options hr]
    · simp only [exec, NewReceiver_chanMap_of_ne d l options hk]
  | DeleteLocation l =>
    simp only [exec, DeleteLocation_chanMap]
    by_cases hk : k = l
    · right; simp [hk]
    · left; simp [hk]
  | SendTo l i => left; simp only [exec, (SendTo_maps d l i).2.2.1]
  | SyncSendTo l i => left; rfl
  | ToReceive l => left; simp only [exec, (ToReceive_maps d l).2.2.1]
  | ToSyncReceive l handle => left; simp only [exec, (ToSyncReceive_maps d l handle).2.1]
  | SetBufferLength l len => left; simp only [exec, (SetBufferLengthAt_maps d l len).2.1]

theorem run_chanMap_registered (calls : List Call) (k : String) :
    ∀ d : defaultDeliverer, (d.receiverMap.Load k).isSome →
      (run d calls).chanMap.Load k = d.chanMap.Load k ∨ (run d calls).chanMap.Load k = none := by
  induction calls with
  | nil => intro d _; left; rfl
  | cons c cs ih =>
    intro d hr
    have hr1 := exec_receiver_registered d c k hr
    rcases exec_chanMap_registered d c k hr with h | h
    · rcases ih (exec d c) hr1 with h2 | h2
      · left; exact h2.trans h
      · right; exact h2
    · right
      exact run_transport_gone cs k (exec d c) hr1 h

theorem queuesBounded_New : queuesBounded New := by
  intro r
  simp [New]

/-- C16: in every state reached from `New()` each Transport holds at most as
many values as its capacity; and when `NewReceiver` succeeds, the Transport it
creates has the capacity of the buffer length the returned Receiver was
configured with (5 with no option), and after any later calls, `SetBufferLength`
on the Receiver included, the Transport of the location still has that
capacity for as long as it exists. -/
theorem transport_capacity_fixed (history : List Call) (d : defaultDeliverer)
    (location : String) (options : List ReceiverOption) (receiver : defaultReceiver)
    (calls : List Call) (ch : Chan)
    (hnew : (NewReceiver d location options).2 = Outcome.returns (some receiver, none))
    (hlater : transport (run (NewReceiver d location options).1 calls) location = some ch) :
    (∀ (loc : String) (c : Chan),
      transport (run New history) loc = some c → c.buf.length ≤ c.cap) ∧
    transport (NewReceiver d location options).1 location
      = some { cap := receiver.bufferLength.toNat, buf := [], closed := false } ∧
    ch.cap = receiver.bufferLength.toNat ∧
    (options = [] → ch.cap = 5) := by
  have hbounded := run_queuesBounded history New queuesBounded_New
  rcases NewReceiver_cases d location options with ⟨h1, _⟩ | ⟨rcv, hfree, hopt, hlen, hret⟩
  · rw [hnew] at h1; simp [succeeded] at h1
  · have hrcv : rcv = receiver := by
      rw [hret] at hnew
      simpa using hnew
    subst hrcv
    have hstate := NewReceiver_fresh d location options rcv hfree hopt hlen
    have hchan : (NewReceiver d location options).1.chanMap.Load location = some d.nextChan := by
      rw [hstate]; simp
    have hreg : ((NewReceiver d location options).1.receiverMap.Load location).isSome := by
      rw [hstate]; simp
    have hnext : d.nextChan < (NewReceiver d location options).1.nextChan := by
      rw [hstate]; simp
    have hcell : ((NewReceiver d location options).1.heap d.nextChan)
        = { cap := rcv.bufferLength.toNat, buf := [], closed := false } := by
      rw [hstate]; simp
    have hcap : ch.cap = rcv.bufferLength.toNat := by
      rcases run_chanMap_registered calls location _ hreg with h | h
      · rw [hchan] at h
        simp only [transport, h, Option.map_some', Option.some.injEq] at hlater
        rw [← hlater, run_cap calls d.nextChan _ hnext, hcell]
      · simp [transport, h] at hlater
    refine ⟨?_, ?_, hcap, ?_⟩
    · intro loc c hc
      simp only [transport] at hc
      cases hl : (run New history).chanMap.Load loc with
      | none => simp [hl] at hc
      | some a =>
        simp only [hl, Option.map_some', Option.some.injEq] at hc
        rw [← hc]
        exact hbounded a
    · simp [transport, hchan, hcell]
    · intro hnil
      subst hnil
      simp only [applyReceiverOptions, Prod.mk.injEq, and_true] at hopt
      rw [hcap, ← hopt]
      simp [defaultReceiveBufferLength]

/-- Witness for C16: a Receiver created with buffer length 2; later
`SetBufferLength 9` changes the Receiver's field but not the capacity. -/
theorem transport_capacity_fixed_witness :
    ((run (NewReceiver New "test" [(ReceiveOption.mk 2).toReceiverOption]).1
        [Call.SetBufferLength "test" 9, Call.SendTo "test" (Value.int 1)]).receiverMap.Load
        "test").map (fun r => r.bufferLength) = some 9 ∧
    transport
        (run (NewReceiver New "test" [(ReceiveOption.mk 2).toReceiverOption]).1
          [Call.SetBufferLength "test" 9, Call.SendTo "test" (Value.int 1)]) "test"
      = some { cap := 2, buf := [Value.int 1], closed := false } ∧
    ({ cap := 2, buf := [Value.int 1], closed := false } : Chan).cap = (2 : Int).toNat :=
  ⟨by decide, by decide,
    (transport_capacity_fixed [] New "test" [(ReceiveOption.mk 2).toReceiverOption]
      { location := "test", handle := none, bufferLength := 2 }
      [Call.SetBufferLength "test" 9, Call.SendTo "test" (Value.int 1)]
      { cap := 2, buf := [Value.int 1], closed := false } rfl (by decide)).2.2.1⟩

/-! ## C17: locations do not interfere -/

theorem NewReceiver_nextChan (d : defaultDeliverer) (location : String)
    (options : List ReceiverOption) :
    (NewReceiver d location options).1.nextChan
      = if succeeded (NewReceiver d location options).2 = true then d.nextChan + 1
        else d.nextChan := by
  rcases NewReceiver_cases d location options with ⟨h1, h2⟩ | ⟨r, hfree, hopt, hlen, hret⟩
  · rw [h2]; simp [h1]
  · rw [hret, NewReceiver_fresh d location options r hfree hopt hlen]
    simp [succeeded]

theorem addressesDistinct_New : addressesDistinct New := by
  constructor
  · intro l ch h; simp [New] at h
  · intro l1 l2 ch h; simp [New] at h

theorem addressesDistinct_of_eq (d e : defaultDeliverer) (h : addressesDistinct d)
    (hc : e.chanMap = d.chanMap) (hn : e.nextChan = d.nextChan) : addressesDistinct e := by
  unfold addressesDistinct
  rw [hc, hn]
  exact h

theorem exec_addressesDistinct (d : defaultDeliverer) (c : Call) (h : addressesDistinct d) :
    addressesDistinct (exec d c) := by
  cases c with
  | NewSender l options =>
    obtain ⟨_, hc, _, hn⟩ := NewSender_maps d l options
    exact addressesDistinct_of_eq d _ h hc hn
  | NewReceiver l options =>
    simp only [exec]
    constructor
    · intro k ch hk
      rw [NewReceiver_chanMap] at hk
      rw [NewReceiver_nextChan]
      by_cases hs : succeeded (NewReceiver d l options).2 = true
      · simp only [hs, and_true] at hk
        simp only [hs, if_true]
        by_cases hkl : k = l
        · simp only [hkl, if_true, Option.some.injEq] at hk
          omega
        · simp only [hkl, if_false] at hk
          have := h.1 k ch hk
          omega
      · simp [hs] at hk
        simp only [hs, if_false]
        exact h.1 k ch hk
    · intro k1 k2 ch hk1 hk2
      rw [NewReceiver_chanMap] at hk1 hk2
      by_cases hs : succeeded (NewReceiver d l options).2 = true
      · simp only [hs, and_true] at hk1 hk2
        by_cases h1 : k1 = l <;> by_cases h2 : k2 = l
        · rw [h1, h2]
        · simp only [h1, if_true, Option.some.injEq, h2, if_false] at hk1 hk2
          have := h.1 k2 ch hk2
          omega
        · simp only [h1, if_false, h2, if_true, Option.some.injEq] at hk1 hk2
          have := h.1 k1 ch hk1
          omega
        · simp only [h1, if_false, h2] at hk1 hk2
          exact h.2 k1 k2 ch hk1 hk2
      · simp [hs] at hk1 hk2
        exact h.2 k1 k2 ch hk1 hk2
  | DeleteLocation l =>
    simp only [exec]
    constructor
    · intro k ch hk
      rw [DeleteLocation_chanMap] at hk
      rw [(DeleteLocation_maps d l).2.2]
      by_cases hkl : k = l
      · simp [hkl] at hk
      · simp only [hkl, if_false] at hk
        exact h.1 k ch hk
    · intro k1 k2 ch hk1 hk2
      rw [DeleteLocation_chanMap] at hk1 hk2
      by_cases h1 : k1 = l
      · simp [h1] at hk1
      · by_cases h2 : k2 = l
        · simp [h2] at hk2
        · simp only [h1, h2, if_false] at hk1 hk2
          exact h.2 k1 k2 ch hk1 hk2
  | SendTo l i =>
    obtain ⟨_, _, hc, hn⟩ := SendTo_maps d l i
    exact addressesDistinct_of_eq d _ h hc hn
  | SyncSendTo l i => exact h
  | ToReceive l =>
    obtain ⟨_, _, hc, hn⟩ := ToReceive_maps d l
    exact addressesDistinct_of_eq d _ h hc hn
  | ToSyncReceive l handle =>
    obtain ⟨_, hc, _, hn⟩ := ToSyncReceive_maps d l handle
    exact addressesDistinct_of_eq d _ h hc hn
  | SetBufferLength l len =>
    obtain ⟨_, hc, _, hn⟩ := SetBufferLengthAt_maps d l len
    exact addressesDistinct_of_eq d _ h hc hn

theorem run_addressesDistinct (calls : List Call) :
    ∀ d : defaultDeliverer, addressesDistinct d → addressesDistinct (run d calls) := by
  induction calls with
  | nil => intro d h; exact h
  | cons c cs ih => intro d h; exact ih (exec d c) (exec_addressesDistinct d c h)

theorem transport_congr (d e : defaultDeliverer) (b : String)
    (hc : e.chanMap.Load b = d.chanMap.Load b)
    (hh : ∀ ch : Nat, d.chanMap.Load b = some ch → e.heap ch = d.heap ch) :
    transport e b = transport d b := by
  unfold transport
  rw [hc]
  cases h : d.chanMap.Load b with
  | none => rfl
  | some ch => simp [hh ch h]

theorem NewSender_senderMap_of_ne (d : defaultDeliverer) (location : String)
    (options : List SenderOption) {k : String} (hk : k ≠ location) :
    (NewSender d location options).1.senderMap.Load k = d.senderMap.Load k := by
  unfold NewSender
  split
  · rfl
  · split
    · simp [SyncMap.Load_Store_of_ne, hk]
    · rfl
    · rfl

theorem NewReceiver_receiverMap_of_ne (d : defaultDeliverer) (location : String)
    (options : List ReceiverOption) {k : String} (hk : k ≠ location) :
    (NewReceiver d location options).1.receiverMap.Load k = d.receiverMap.Load k := by
  rcases NewReceiver_cases d location options with ⟨_, h2⟩ | ⟨r, hfree, hopt, hlen, _⟩
  · rw [h2]
  · rw [NewReceiver_fresh d location options r hfree hopt hlen]
    simp [SyncMap.Load_Store_of_ne, hk]

theorem ToSyncReceive_receiverMap_of_ne (d : defaultDeliverer) (location : String)
    (handle : ReceiveHandle) {k : String} (hk : k ≠ location) :
    (defaultReceiver.ToSyncReceive d location handle).receiverMap.Load k
      = d.receiverMap.Load k := by
  unfold defaultReceiver.ToSyncReceive
  split
  · rfl
  · simp [SyncMap.Load_Store_of_ne, hk]

theorem SetBufferLengthAt_receiverMap_of_ne (d : defaultDeliverer) (location : String)
    (len : Int) {k : String} (hk : k ≠ location) :
    (SetBufferLengthAt d location len).receiverMap.Load k = d.receiverMap.Load k := by
  unfold SetBufferLengthAt
  split
  · rfl
  · simp [SyncMap.Load_Store_of_ne, hk]

theorem SendTo_heap_of_ne (d : defaultDeliverer) (location : String) (i : Value) (r : Nat)
    (hr : d.chanMap.Load location ≠ some r) :
    (defaultSender.SendTo d location i).1.heap r = d.heap r := by
  unfold defaultSender.SendTo defaultSender.sendTo
  split
  · rfl
  · split
    · rfl
    · rename_i ch hch
      have hne : r ≠ ch := fun h => hr (by rw [hch, h])
      split
      · rfl
      · split
        · simp [setChan_of_ne _ _ hne]
        · rfl

theorem ToReceive_heap_of_ne (d : defaultDeliverer) (location : String) (r : Nat)
    (hr : d.chanMap.Load location ≠ some r) :
    (defaultReceiver.ToReceive d location).1.heap r = d.heap r := by
  unfold defaultReceiver.ToReceive
  split
  · rfl
  · split
    · rfl
    · rename_i ch hch
      have hne : r ≠ ch := fun h => hr (by rw [hch, h])
      unfold defaultReceiver.ToReceive_TransportChan defaultReceiver.toReceive
      cases hb : (d.heap ch).buf with
      | nil =>
        by_cases hcl : (d.heap ch).closed = true
        · simp only [hcl, if_true]
        · simp only [hcl]; rfl
      | cons v rest => simp [setChan_of_ne _ _ hne]

theorem DeleteLocation_heap_of_ne (d : defaultDeliverer) (location : String) (r : Nat)
    (hr : d.chanMap.Load location ≠ some r) :
    (DeleteLocation d location).1.heap r = d.heap r := by
  cases hch : d.chanMap.Load location with
  | none => rw [DeleteLocation_of_none d location hch]
  | some ch =>
    have hne : r ≠ ch := fun h => hr (by rw [hch, h])
    have h1 : d.chanMap.LoadAndDelete location
        = (some ch, (d.chanMap.LoadAndDelete location).2) := by
      rw [← hch]; rfl
    unfold DeleteLocation
    rw [h1]
    by_cases hcl : (d.heap ch).closed = true
    · simp [hcl]
    · simp [hcl, setChan_of_ne _ _ hne]

theorem exec_view_of_ne (d : defaultDeliverer) (c : Call) (b : String)
    (hwf : addressesDistinct d) (hb : c.location ≠ b) :
    view (exec d c) b = view d b ∧ (exec d c).chanMap.Load b = d.chanMap.Load b := by
  have hb1 : b ≠ c.location := fun h => hb h.symm
  have hother : ∀ ch : Nat, d.chanMap.Load b = some ch → d.chanMap.Load c.location ≠ some ch :=
    fun ch h1 h2 => hb (hwf.2 _ _ ch h2 h1)
  cases c with
  | NewSender l options =>
    obtain ⟨hr, hc, hh, _⟩ := NewSender_maps d l options
    simp only [exec, view, hr, NewSender_senderMap_of_ne d l options hb1, hc]
    exact ⟨by rw [transport_congr d _ b (by rw [hc]) (fun ch _ => by rw [hh])], trivial⟩
  | NewReceiver l options =>
    have hc := NewReceiver_chanMap_of_ne d l options hb1
    simp only [exec, view, NewReceiver_senderMap, NewReceiver_receiverMap_of_ne d l options hb1,
      hc]
    refine ⟨?_, trivial⟩
    rw [transport_congr d _ b hc
      (fun ch h => (NewReceiver_heap d l options ch).1 (Nat.ne_of_lt (hwf.1 b ch h)))]
  | DeleteLocation l =>
    obtain ⟨hs, hr, _⟩ := DeleteLocation_maps d l
    have hc : (DeleteLocation d l).1.chanMap.Load b = d.chanMap.Load b := by
      rw [DeleteLocation_chanMap]; exact if_neg hb1
    simp only [exec, view, hs, hr, hc]
    refine ⟨?_, trivial⟩
    rw [transport_congr d _ b hc (fun ch h => DeleteLocation_heap_of_ne d l ch (hother ch h))]
  | SendTo l i =>
    obtain ⟨hs, hr, hc, _⟩ := SendTo_maps d l i
    simp only [exec, view, hs, hr, hc]
    refine ⟨?_, trivial⟩
    rw [transport_congr d _ b (by rw [hc]) (fun ch h => SendTo_heap_of_ne d l i ch (hother ch h))]
  | SyncSendTo l i => exact ⟨rfl, rfl⟩
  | ToReceive l =>
    obtain ⟨hs, hr, hc, _⟩ := ToReceive_maps d l
    simp only [exec, view, hs, hr, hc]
    refine ⟨?_, trivial⟩
    rw [transport_congr d _ b (by rw [hc]) (fun ch h => ToReceive_heap_of_ne d l ch (hother ch h))]
  | ToSyncReceive l handle =>
    obtain ⟨hs, hc, hh, _⟩ := ToSyncReceive_maps d l handle
    simp only [exec, view, hs, ToSyncReceive_receiverMap_of_ne d l handle hb1, hc]
    exact ⟨by rw [transport_congr d _ b (by rw [hc]) (fun ch _ => by rw [hh])], trivial⟩
  | SetBufferLength l len =>
    obtain ⟨hs, hc, hh, _⟩ := SetBufferLengthAt_maps d l len
    simp only [exec, view, hs, SetBufferLengthAt_receiverMap_of_ne d l len hb1, hc]
    exact ⟨by rw [transport_congr d _ b (by rw [hc]) (fun ch _ => by rw [hh])], trivial⟩

theorem transport_cases (d e : defaultDeliverer) (l : String)
    (ht : transport d l = transport e l) :
    (d.chanMap.Load l = none ∧ e.chanMap.Load l = none) ∨
    (∃ cd ce : Nat, d.chanMap.Load l = some cd ∧ e.chanMap.Load l = some ce ∧
      d.heap cd = e.heap ce) := by
  unfold transport at ht
  cases hd : d.chanMap.Load l with
  | none =>
    cases he : e.chanMap.Load l with
    | none => left; exact ⟨rfl, rfl⟩
    | some ce => rw [hd, he] at ht; simp at ht
  | some cd =>
    cases he : e.chanMap.Load l with
    | none => rw [hd, he] at ht; simp at ht
    | some ce =>
      right
      rw [hd, he] at ht
      exact ⟨cd, ce, rfl, rfl, by simpa using ht⟩

theorem transport_of_some (d : defaultDeliverer) (l : String) (ch : Nat)
    (h : d.chanMap.Load l = some ch) : transport d l = some (d.heap ch) := by
  simp [transport, h]

theorem transport_of_none (d : defaultDeliverer) (l : String)
    (h : d.chanMap.Load l = none) : transport d l = none := by
  simp [transport, h]

theorem SendTo_sim (d e : defaultDeliverer) (l : String) (i : Value)
    (hr : d.receiverMap.Load l = e.receiverMap.Load l)
    (ht : transport d l = transport e l) :
    (defaultSender.SendTo d l i).2 = (defaultSender.SendTo e l i).2 ∧
    transport (defaultSender.SendTo d l i).1 l = transport (defaultSender.SendTo e l i).1 l := by
  cases hrd : d.receiverMap.Load l with
  | none =>
    have hre : e.receiverMap.Load l = none := by rw [← hr, hrd]
    simp [defaultSender.SendTo, hrd, hre, ht]
  | some r =>
    have hre : e.receiverMap.Load l = some r := by rw [← hr, hrd]
    rcases transport_cases d e l ht with ⟨hd, he⟩ | ⟨cd, ce, hd, he, hx⟩
    · simp [defaultSender.SendTo, hrd, hre, hd, he, ht]
    · by_cases hcl : (e.heap ce).closed = true
      · simp [defaultSender.SendTo, defaultSender.sendTo, hrd, hre, hd, he, hx, hcl, ht]
      · by_cases hroom : (e.heap ce).buf.length < (e.heap ce).cap
        · simp [defaultSender.SendTo, defaultSender.sendTo, hrd, hre, hd, he, hx, hcl, hroom,
            transport]
        · simp [defaultSender.SendTo, defaultSender.sendTo, hrd, hre, hd, he, hx, hcl, hroom, ht]

theorem ToReceive_sim (d e : defaultDeliverer) (l : String)
    (hs : d.senderMap.Load l = e.senderMap.Load l)
    (ht : transport d l = transport e l) :
    (defaultReceiver.ToReceive d l).2 = (defaultReceiver.ToReceive e l).2 ∧
    transport (defaultReceiver.ToReceive d l).1 l
      = transport (defaultReceiver.ToReceive e l).1 l := by
  cases hsd : d.senderMap.Load l with
  | none =>
    have hse : e.senderMap.Load l = none := by rw [← hs, hsd]
    simp [defaultReceiver.ToReceive, hsd, hse, ht]
  | some s =>
    have hse : e.senderMap.Load l = some s := by rw [← hs, hsd]
    rcases transport_cases d e l ht with ⟨hd, he⟩ | ⟨cd, ce, hd, he, hx⟩
    · simp [defaultReceiver.ToReceive, hsd, hse, hd, he, ht]
    · cases hb : (e.heap ce).buf with
      | nil =>
        by_cases hcl : (e.heap ce).closed = true
        · simp [defaultReceiver.ToReceive, defaultReceiver.ToReceive_TransportChan,
            defaultReceiver.toReceive, hsd, hse, hd, he, hx, hb, hcl, ht]
        · simp [defaultReceiver.ToReceive, defaultReceiver.ToReceive_TransportChan,
            defaultReceiver.toReceive, hsd, hse, hd, he, hx, hb, hcl, ht]
      | cons v rest =>
        simp [defaultReceiver.ToReceive, defaultReceiver.ToReceive_TransportChan,
          defaultReceiver.toReceive, hsd, hse, hd, he, hx, hb, transport]

theorem DeleteLocation_sim (d e : defaultDeliverer) (l : String)
    (ht : transport d l = transport e l) :
    (DeleteLocation d l).2 = (DeleteLocation e l).2 ∧
    transport (DeleteLocation d l).1 l = transport (DeleteLocation e l).1 l := by
  have hafter : ∀ x : defaultDeliverer, transport (DeleteLocation x l).1 l = none :=
    fun x => transport_of_none _ l (DeleteLocation_chanMap_self x l)
  refine ⟨?_, by rw [hafter d, hafter e]⟩
  rcases transport_cases d e l ht with ⟨hd, he⟩ | ⟨cd, ce, hd, he, hx⟩
  · rw [DeleteLocation_of_none d l hd, DeleteLocation_of_none e l he]
  · have h1 : d.chanMap.LoadAndDelete l = (some cd, (d.chanMap.LoadAndDelete l).2) := by
      rw [← hd]; rfl
    have h2 : e.chanMap.LoadAndDelete l = (some ce, (e.chanMap.LoadAndDelete l).2) := by
      rw [← he]; rfl
    unfold DeleteLocation
    rw [h1, h2]
    simp only [hx]
    by_cases hcl : (e.heap ce).closed = true
    · simp [hcl]
    · simp [hcl]

theorem NewSender_sim (d e : defaultDeliverer) (l : String) (options : List SenderOption)
    (hs : d.senderMap.Load l = e.senderMap.Load l) :
    (NewSender d l options).2 = (NewSender e l options).2 ∧
    (NewSender d l options).1.senderMap.Load l = (NewSender e l options).1.senderMap.Load l := by
  cases hsd : d.senderMap.Load l with
  | some s =>
    have hse : e.senderMap.Load l = some s := by rw [← hs, hsd]
    simp [NewSender, hsd, hse]
  | none =>
    have hse : e.senderMap.Load l = none := by rw [← hs, hsd]
    rcases hn : newDefaultSender l options with ⟨_ | s, _ | err⟩ <;>
      simp [NewSender, hsd, hse, hn]

theorem NewReceiver_sim (d e : defaultDeliverer) (l : String) (options : List ReceiverOption)
    (hr : d.receiverMap.Load l = e.receiverMap.Load l)
    (ht : transport d l = transport e l) :
    (NewReceiver d l options).2 = (NewReceiver e l options).2 ∧
    (NewReceiver d l options).1.receiverMap.Load l
      = (NewReceiver e l options).1.receiverMap.Load l ∧
    transport (NewReceiver d l options).1 l = transport (NewReceiver e l options).1 l := by
  cases hrd : d.receiverMap.Load l with
  | some r =>
    have hre : e.receiverMap.Load l = some r := by rw [← hr, hrd]
    rw [NewReceiver_registered d l options (by simp [hrd]),
      NewReceiver_registered e l options (by simp [hre])]
    exact ⟨rfl, hr, ht⟩
  | none =>
    have hre : e.receiverMap.Load l = none := by rw [← hr, hrd]
    rcases h2 : applyReceiverOptions
      { location := l, handle := none, bufferLength := defaultReceiveBufferLength }
      options with ⟨r, _ | err⟩
    · by_cases h3 : sizeInRange r.bufferLength
      · rw [NewReceiver_fresh d l options r hrd h2 h3, NewReceiver_fresh e l options r hre h2 h3]
        simp [transport]
      · simp [NewReceiver, newDefaultReceiver, hrd, hre, h2, makeChan_of_not_inRange h3, ht]
    · simp [NewReceiver, newDefaultReceiver, hrd, hre, h2, ht]

theorem transport_of_eq (d e : defaultDeliverer) (l : String)
    (hc : e.chanMap = d.chanMap) (hh : e.heap = d.heap) : transport e l = transport d l := by
  simp [transport, hc, hh]

theorem exec_sim (d e : defaultDeliverer) (c : Call) (b : String)
    (hc : c.location = b) (hv : view d b = view e b) :
    result d c = result e c ∧ view (exec d c) b = view (exec e c) b := by
  simp only [view, Prod.mk.injEq] at hv
  obtain ⟨hs, hr, ht⟩ := hv
  cases c with
  | NewSender l options =>
    simp only [Call.location] at hc
    subst hc
    obtain ⟨h1, h2⟩ := NewSender_sim d e l options hs
    obtain ⟨dr, dc, dh, _⟩ := NewSender_maps d l options
    obtain ⟨er, ec, eh, _⟩ := NewSender_maps e l options
    simp only [result, exec, view, h1, h2, dr, er, hr,
      transport_of_eq d _ l dc dh, transport_of_eq e _ l ec eh, ht, and_self]
  | NewReceiver l options =>
    simp only [Call.location] at hc
    subst hc
    obtain ⟨h1, h2, h3⟩ := NewReceiver_sim d e l options hr ht
    simp only [result, exec, view, h1, h2, h3, NewReceiver_senderMap, hs, and_self]
  | DeleteLocation l =>
    simp only [Call.location] at hc
    subst hc
    obtain ⟨h1, h2⟩ := DeleteLocation_sim d e l ht
    obtain ⟨ds, dr, _⟩ := DeleteLocation_maps d l
    obtain ⟨es, er, _⟩ := DeleteLocation_maps e l
    simp only [result, exec, view, h1, h2, ds, dr, es, er, hs, hr, and_self]
  | SendTo l i =>
    simp only [Call.location] at hc
    subst hc
    obtain ⟨h1, h2⟩ := SendTo_sim d e l i hr ht
    obtain ⟨ds, dr, _, _⟩ := SendTo_maps d l i
    obtain ⟨es, er, _, _⟩ := SendTo_maps e l i
    simp only [result, exec, view, h1, h2, ds, dr, es, er, hs, hr, and_self]
  | SyncSendTo l i =>
    simp only [Call.location] at hc
    subst hc
    simp only [result, exec, view, defaultSender.SyncSendTo, hs, hr, ht, and_self]
  | ToReceive l =>
    simp only [Call.location] at hc
    subst hc
    obtain ⟨h1, h2⟩ := ToReceive_sim d e l hs ht
    obtain ⟨ds, dr, _, _⟩ := ToReceive_maps d l
    obtain ⟨es, er, _, _⟩ := ToReceive_maps e l
    simp only [result, exec, view, h1, h2, ds, dr, es, er, hs, hr, and_self]
  | ToSyncReceive l handle =>
    simp only [Call.location] at hc
    subst hc
    obtain ⟨ds, dc, dh, _⟩ := ToSyncReceive_maps d l handle
    obtain ⟨es, ec, eh, _⟩ := ToSyncReceive_maps e l handle
    have h2 : (defaultReceiver.ToSyncReceive d l handle).receiverMap.Load l
        = (defaultReceiver.ToSyncReceive e l handle).receiverMap.Load l := by
      cases hrd : d.receiverMap.Load l with
      | none =>
        have hre : e.receiverMap.Load l = none := by rw [← hr, hrd]
        simp [defaultReceiver.ToSyncReceive, hrd, hre]
      | some r =>
        have hre : e.receiverMap.Load l = some r := by rw [← hr, hrd]
        simp [defaultReceiver.ToSyncReceive, hrd, hre]
    simp only [result, exec, view, h2, ds, es, hs,
      transport_of_eq d _ l dc dh, transport_of_eq e _ l ec eh, ht, and_self]
  | SetBufferLength l len =>
    simp only [Call.location] at hc
    subst hc
    obtain ⟨ds, dc, dh, _⟩ := SetBufferLengthAt_maps d l len
    obtain ⟨es, ec, eh, _⟩ := SetBufferLengthAt_maps e l len
    have h2 : (SetBufferLengthAt d l len).receiverMap.Load l
        = (SetBufferLengthAt e l len).receiverMap.Load l := by
      cases hrd : d.receiverMap.Load l with
      | none =>
        have hre : e.receiverMap.Load l = none := by rw [← hr, hrd]
        simp [SetBufferLengthAt, hrd, hre]
      | some r =>
        have hre : e.receiverMap.Load l = some r := by rw [← hr, hrd]
        simp [SetBufferLengthAt, hrd, hre]
    simp only [result, exec, view, h2, ds, es, hs,
      transport_of_eq d _ l dc dh, transport_of_eq e _ l ec eh, ht, and_self]

theorem results_sim (b : String) (calls : List Call) :
    ∀ d e : defaultDeliverer, (∀ c ∈ calls, c.location = b) → view d b = view e b →
      results d calls = results e calls := by
  induction calls with
  | nil => intro d e _ _; rfl
  | cons c cs ih =>
    intro d e hb hv
    obtain ⟨h1, h2⟩ := exec_sim d e c b (hb c (by simp)) hv
    simp only [results, h1]
    rw [ih (exec d c) (exec e c) (fun c2 hc2 => hb c2 (by simp [hc2])) h2]

/-- C17: in every state reached from `New()`, a call on a location other than
`b` leaves everything the state holds for `b` as it was (Sender entry, Receiver
entry with its handler slot, Transport entry, the queued values), and any
later calls on `b` return what they would have returned without it. -/
theorem locations_independent (history : List Call) (c : Call) (b : String)
    (later : List Call) (hab : c.location ≠ b) (hb : ∀ c2 ∈ later, c2.location = b) :
    view (exec (run New history) c) b = view (run New history) b ∧
    (exec (run New history) c).chanMap.Load b = (run New history).chanMap.Load b ∧
    results (exec (run New history) c) later = results (run New history) later := by
  have hwf := run_addressesDistinct history New addressesDistinct_New
  obtain ⟨h1, h2⟩ := exec_view_of_ne (run New history) c b hwf hab
  exact ⟨h1, h2, results_sim b later _ _ hb h1⟩

/-- Witness for C17: locations "a" and "b" are both paired and "b" holds a
value; "a" is then deleted, and "b" is received from and sent to. -/
theorem locations_independent_witness :
    results
        (exec
          (run New [Call.NewSender "a" [], Call.NewReceiver "a" [], Call.NewSender "b" [],
            Call.NewReceiver "b" [], Call.SendTo "b" (Value.int 1)])
          (Call.DeleteLocation "a"))
        [Call.ToReceive "b", Call.SendTo "b" (Value.int 2)]
      = results
        (run New [Call.NewSender "a" [], Call.NewReceiver "a" [], Call.NewSender "b" [],
          Call.NewReceiver "b" [], Call.SendTo "b" (Value.int 1)])
        [Call.ToReceive "b", Call.SendTo "b" (Value.int 2)] :=
  (locations_independent
    [Call.NewSender "a" [], Call.NewReceiver "a" [], Call.NewSender "b" [],
      Call.NewReceiver "b" [], Call.SendTo "b" (Value.int 1)]
    (Call.DeleteLocation "a") "b" [Call.ToReceive "b", Call.SendTo "b" (Value.int 2)]
    (by decide)
    (by intro c2 h; simp at h; rcases h with rfl | rfl <;> rfl)).2.2

/-! ## C19: two concurrent registrations of one location -/

theorem Thread_steps_NewSender (d : defaultDeliverer) (location : String)
    (options : List SenderOption) (rm : Bool) :
    Thread.steps { d := d, senderMtx := false, receiverMtx := rm }
        (Thread.senderLock location options) 4
      = ({ d := (NewSender d location options).1, senderMtx := false, receiverMtx := rm },
          Thread.senderDone (NewSender d location options).2) := by
  cases h1 : d.senderMap.Load location with
  | some s => simp [Thread.steps, Thread.step, NewSender, h1]
  | none =>
    rcases h2 : newDefaultSender location options with ⟨_ | s, _ | err⟩ <;>
      simp [Thread.steps, Thread.step, NewSender, h1, h2]

theorem Thread_steps_NewReceiver (d : defaultDeliverer) (location : String)
    (options : List ReceiverOption) (sm : Bool) :
    Thread.steps { d := d, senderMtx := sm, receiverMtx := false }
        (Thread.receiverLock location options) 5
      = ({ d := (NewReceiver d location options).1, senderMtx := sm, receiverMtx := false },
          Thread.receiverDone (NewReceiver d location options).2) := by
  cases h1 : d.receiverMap.Load location with
  | some s => simp [Thread.steps, Thread.step, NewReceiver, h1]
  | none =>
    rcases h2 : applyReceiverOptions
      { location := location, handle := none, bufferLength := defaultReceiveBufferLength }
      options with ⟨r, _ | err⟩
    · cases h3 : makeChan r.bufferLength with
      | none => simp [Thread.steps, Thread.step, NewReceiver, newDefaultReceiver, h1, h2, h3]
      | some ch => simp [Thread.steps, Thread.step, NewReceiver, newDefaultReceiver, h1, h2, h3]
    · simp [Thread.steps, Thread.step, NewReceiver, newDefaultReceiver, h1, h2]

theorem senderStageRace_step (d : defaultDeliverer) (location : String)
    (o1 o2 : List SenderOption) (p : Bool × SenderStage) (pick : Bool)
    (hs : d.senderMap.Load location = none)
    (h1 : ∀ o ∈ o1, o.Apply { location := location } = none)
    (h2 : ∀ o ∈ o2, o.Apply { location := location } = none) :
    (senderStageRace d location o1 o2 p).step pick
      = senderStageRace d location o1 o2 (senderNext p pick) := by
  have g1 := applySenderOptions_ok { location := location } o1 h1
  have g2 := applySenderOptions_ok { location := location } o2 h2
  obtain ⟨w, st⟩ := p
  cases w <;> cases pick <;> cases st <;>
    simp [senderStageRace, senderNext, place, Race.step, Thread.step, hs, newDefaultSender,
      g1, g2]

theorem senderStageRace_run (d : defaultDeliverer) (location : String)
    (o1 o2 : List SenderOption) (schedule : List Bool)
    (hs : d.senderMap.Load location = none)
    (h1 : ∀ o ∈ o1, o.Apply { location := location } = none)
    (h2 : ∀ o ∈ o2, o.Apply { location := location } = none) :
    ∀ p : Bool × SenderStage,
      (senderStageRace d location o1 o2 p).run schedule
        = senderStageRace d location o1 o2 (schedule.foldl senderNext p) := by
  induction schedule with
  | nil => intro p; rfl
  | cons pick rest ih =>
    intro p
    simp only [Race.run, List.foldl_cons]
    rw [senderStageRace_step d location o1 o2 p pick hs h1 h2]
    exact ih (senderNext p pick)

theorem senderNext_finishBoth (p : Bool × SenderStage) :
    (finishBoth.foldl senderNext p).2 = SenderStage.finished := by
  obtain ⟨w, st⟩ := p
  cases w <;> cases st <;> rfl

theorem receiverStageRace_step (d : defaultDeliverer) (location : String)
    (o1 o2 : List ReceiverOption) (r1 r2 : defaultReceiver) (p : Bool × ReceiverStage)
    (pick : Bool) (hr : d.receiverMap.Load location = none)
    (h1 : applyReceiverOptions
      { location := location, handle := none, bufferLength := defaultReceiveBufferLength }
      o1 = (r1, none))
    (h2 : applyReceiverOptions
      { location := location, handle := none, bufferLength := defaultReceiveBufferLength }
      o2 = (r2, none))
    (g1 : sizeInRange r1.bufferLength) (g2 : sizeInRange r2.bufferLength) :
    (receiverStageRace d location o1 o2 r1 r2 p).step pick
      = receiverStageRace d location o1 o2 r1 r2 (receiverNext p pick) := by
  have k1 := makeChan_of_inRange g1
  have k2 := makeChan_of_inRange g2
  obtain ⟨w, st⟩ := p
  cases w <;> cases pick <;> cases st <;>
    simp [receiverStageRace, receiverNext, place, Race.step, Thread.step, hr, h1, h2, k1, k2]

theorem receiverStageRace_run (d : defaultDeliverer) (location : String)
    (o1 o2 : List ReceiverOption) (r1 r2 : defaultReceiver) (schedule : List Bool)
    (hr : d.receiverMap.Load location = none)
    (h1 : applyReceiverOptions
      { location := location, handle := none, bufferLength := defaultReceiveBufferLength }
      o1 = (r1, none))
    (h2 : applyReceiverOptions
      { location := location, handle := none, bufferLength := defaultReceiveBufferLength }
      o2 = (r2, none))
    (g1 : sizeInRange r1.bufferLength) (g2 : sizeInRange r2.bufferLength) :
    ∀ p : Bool × ReceiverStage,
      (receiverStageRace d location o1 o2 r1 r2 p).run schedule
        = receiverStageRace d location o1 o2 r1 r2 (schedule.foldl receiverNext p) := by
  induction schedule with
  | nil => intro p; rfl
  | cons pick rest ih =>
    intro p
    simp only [Race.run, List.foldl_cons]
    rw [receiverStageRace_step d location o1 o2 r1 r2 p pick hr h1 h2 g1 g2]
    exact ih (receiverNext p pick)

theorem receiverNext_finishBoth (p : Bool × ReceiverStage) :
    (finishBoth.foldl receiverNext p).2 = ReceiverStage.finished := by
  obtain ⟨w, st⟩ := p
  cases w <;> cases st <;> rfl

theorem senderStageRace_done (d : defaultDeliverer) (location : String)
    (o1 o2 : List SenderOption) (p : Bool × SenderStage)
    (ret1 ret2 : Option defaultSender × Option Error)
    (hd1 : (senderStageRace d location o1 o2 p).first = Thread.senderDone ret1)
    (hd2 : (senderStageRace d location o1 o2 p).second = Thread.senderDone ret2) :
    (ret1 = (some { location := location }, none) ∧
      ret2 = (none, some (Error.senderExists location))) ∨
    (ret1 = (none, some (Error.senderExists location)) ∧
      ret2 = (some { location := location }, none)) := by
  obtain ⟨w, st⟩ := p
  cases w <;> cases st <;> simp [senderStageRace, place] at hd1 hd2
  · right; exact ⟨hd1.symm, hd2.symm⟩
  · left; exact ⟨hd1.symm, hd2.symm⟩

theorem receiverStageRace_done (d : defaultDeliverer) (location : String)
    (o1 o2 : List ReceiverOption) (r1 r2 : defaultReceiver) (p : Bool × ReceiverStage)
    (ret1 ret2 : Outcome (Option defaultReceiver × Option Error))
    (hd1 : (receiverStageRace d location o1 o2 r1 r2 p).first = Thread.receiverDone ret1)
    (hd2 : (receiverStageRace d location o1 o2 r1 r2 p).second = Thread.receiverDone ret2) :
    (ret1 = Outcome.returns (some r1, none) ∧
      ret2 = Outcome.returns (none, some (Error.receiverExists location)) ∧
      (receiverStageRace d location o1 o2 r1 r2 p).shared.d.receiverMap.Load location
        = some r1) ∨
    (ret1 = Outcome.returns (none, some (Error.receiverExists location)) ∧
      ret2 = Outcome.returns (some r2, none) ∧
      (receiverStageRace d location o1 o2 r1 r2 p).shared.d.receiverMap.Load location
        = some r2) := by
  obtain ⟨w, st⟩ := p
  cases w <;> cases st <;> simp [receiverStageRace, place] at hd1 hd2
  · right; exact ⟨hd1.symm, hd2.symm, by simp [receiverStageRace, place]⟩
  · left; exact ⟨hd1.symm, hd2.symm, by simp [receiverStageRace, place]⟩

theorem Race_run_append (r : Race) (s1 s2 : List Bool) :
    r.run (s1 ++ s2) = (r.run s1).run s2 := by
  simp [Race.run, List.foldl_append]

theorem senderStageRace_finished (d : defaultDeliverer) (location : String)
    (o1 o2 : List SenderOption) (p : Bool × SenderStage) (hp : p.2 = SenderStage.finished) :
    ∃ ret1 ret2,
      (senderStageRace d location o1 o2 p).first = Thread.senderDone ret1 ∧
      (senderStageRace d location o1 o2 p).second = Thread.senderDone ret2 := by
  obtain ⟨w, st⟩ := p
  simp only at hp
  subst hp
  cases w
  · exact ⟨_, _, rfl, rfl⟩
  · exact ⟨_, _, rfl, rfl⟩

theorem receiverStageRace_finished (d : defaultDeliverer) (location : String)
    (o1 o2 : List ReceiverOption) (r1 r2 : defaultReceiver) (p : Bool × ReceiverStage)
    (hp : p.2 = ReceiverStage.finished) :
    ∃ ret1 ret2,
      (receiverStageRace d location o1 o2 r1 r2 p).first = Thread.receiverDone ret1 ∧
      (receiverStageRace d location o1 o2 r1 r2 p).second = Thread.receiverDone ret2 := by
  obtain ⟨w, st⟩ := p
  simp only at hp
  subst hp
  cases w
  · exact ⟨_, _, rfl, rfl⟩
  · exact ⟨_, _, rfl, rfl⟩

/-- C19: two callers run `NewSender` concurrently for one location that has no
Sender yet (options that return nil), mutexes free at the start, whatever else
the Deliverer holds.  Under every schedule of their steps, whenever both have
returned exactly one has returned the Sender with a nil error and the other the
duplicate-location error; and every schedule can be continued so that both
return.  The same holds for two concurrent `NewReceiver` calls on a location
that has no Receiver yet (options that return nil and set lengths that pass the
range check of `make`), where moreover the Receiver left in the registry is the
one returned to the successful caller. -/
theorem concurrent_registration_one_winner (d : defaultDeliverer) (location : String)
    (o1 o2 : List SenderOption) (q1 q2 : List ReceiverOption) (schedule : List Bool) :
    (d.senderMap.Load location = none →
      (∀ o ∈ o1, o.Apply { location := location } = none) →
      (∀ o ∈ o2, o.Apply { location := location } = none) →
      (∀ ret1 ret2,
        ((senderRace d location o1 o2).run schedule).first = Thread.senderDone ret1 →
        ((senderRace d location o1 o2).run schedule).second = Thread.senderDone ret2 →
        (ret1 = (some { location := location }, none) ∧
          ret2 = (none, some (Error.senderExists location))) ∨
        (ret1 = (none, some (Error.senderExists location)) ∧
          ret2 = (some { location := location }, none))) ∧
      (∃ ret1 ret2,
        ((senderRace d location o1 o2).run (schedule ++ finishBoth)).first
          = Thread.senderDone ret1 ∧
        ((senderRace d location o1 o2).run (schedule ++ finishBoth)).second
          = Thread.senderDone ret2)) ∧
    (d.receiverMap.Load location = none →
      (∀ o ∈ q1, o.result = none ∧ ∀ n ∈ o.calls, sizeInRange n) →
      (∀ o ∈ q2, o.result = none ∧ ∀ n ∈ o.calls, sizeInRange n) →
      (∀ ret1 ret2,
        ((receiverRace d location q1 q2).run schedule).first = Thread.receiverDone ret1 →
        ((receiverRace d location q1 q2).run schedule).second = Thread.receiverDone ret2 →
        ∃ r1 r2 : defaultReceiver,
          (ret1 = Outcome.returns (some r1, none) ∧
            ret2 = Outcome.returns (none, some (Error.receiverExists location)) ∧
            ((receiverRace d location q1 q2).run schedule).shared.d.receiverMap.Load location
              = some r1) ∨
          (ret1 = Outcome.returns (none, some (Error.receiverExists location)) ∧
            ret2 = Outcome.returns (some r2, none) ∧
            ((receiverRace d location q1 q2).run schedule).shared.d.receiverMap.Load location
              = some r2)) ∧
      (∃ ret1 ret2,
        ((receiverRace d location q1 q2).run (schedule ++ finishBoth)).first
          = Thread.receiverDone ret1 ∧
        ((receiverRace d location q1 q2).run (schedule ++ finishBoth)).second
          = Thread.receiverDone ret2)) := by
  constructor
  · intro hs h1 h2
    have hS : senderRace d location o1 o2
        = senderStageRace d location o1 o2 (true, SenderStage.start) := rfl
    have runS := senderStageRace_run d location o1 o2 schedule hs h1 h2
      (true, SenderStage.start)
    constructor
    · intro ret1 ret2 hd1 hd2
      rw [hS, runS] at hd1 hd2
      exact senderStageRace_done d location o1 o2 _ ret1 ret2 hd1 hd2
    · rw [Race_run_append, hS, runS,
        senderStageRace_run d location o1 o2 finishBoth hs h1 h2]
      exact senderStageRace_finished d location o1 o2 _ (senderNext_finishBoth _)
  · intro hr k1 k2
    obtain ⟨r1, hq1, g1⟩ := applyReceiverOptions_ok q1
      { location := location, handle := none, bufferLength := defaultReceiveBufferLength }
      sizeInRange_default k1
    obtain ⟨r2, hq2, g2⟩ := applyReceiverOptions_ok q2
      { location := location, handle := none, bufferLength := defaultReceiveBufferLength }
      sizeInRange_default k2
    have hR : receiverRace d location q1 q2
        = receiverStageRace d location q1 q2 r1 r2 (true, ReceiverStage.start) := rfl
    have runR := receiverStageRace_run d location q1 q2 r1 r2 schedule hr hq1 hq2 g1 g2
      (true, ReceiverStage.start)
    constructor
    · intro ret1 ret2 hd1 hd2
      rw [hR, runR] at hd1 hd2 ⊢
      exact ⟨r1, r2, receiverStageRace_done d location q1 q2 r1 r2 _ ret1 ret2 hd1 hd2⟩
    · rw [Race_run_append, hR, runR,
        receiverStageRace_run d location q1 q2 r1 r2 finishBoth hr hq1 hq2 g1 g2]
      exact receiverStageRace_finished d location q1 q2 r1 r2 _ (receiverNext_finishBoth _)

/-- Witness for C19: two `NewSender("test")` calls on a fresh Deliverer, the
second caller taking the mutex first; and two `NewReceiver("test")` calls on the
Deliverer of `TestNew` after its `NewSender("test")`, steps interleaved. -/
theorem concurrent_registration_one_winner_witness :
    ((senderRace New "test" [] []).run [false, true, false, true, false, false, true, true,
      true]).first = Thread.senderDone (none, some (Error.senderExists "test")) ∧
    ((senderRace New "test" [] []).run [false, true, false, true, false, false, true, true,
      true]).second = Thread.senderDone (some { location := "test" }, none) ∧
    ((NewSender New "test" []).1.senderMap.Load "test").isSome = true ∧
    (∃ ret1 ret2,
      ((senderRace New "test" [] []).run
        ([false, true, false, true] ++ finishBoth)).first = Thread.senderDone ret1 ∧
      ((senderRace New "test" [] []).run
        ([false, true, false, true] ++ finishBoth)).second = Thread.senderDone ret2) ∧
    ∃ ret1 ret2,
      ((receiverRace (NewSender New "test" []).1 "test" [] []).run
        ([true, false, true, false] ++ finishBoth)).first = Thread.receiverDone ret1 ∧
      ((receiverRace (NewSender New "test" []).1 "test" [] []).run
        ([true, false, true, false] ++ finishBoth)).second = Thread.receiverDone ret2 :=
  ⟨rfl, rfl, by decide,
    ((concurrent_registration_one_winner New "test" [] [] [] []
      [false, true, false, true]).1 rfl
      (fun _ ho => absurd ho (List.not_mem_nil _))
      (fun _ ho => absurd ho (List.not_mem_nil _))).2,
    ((concurrent_registration_one_winner (NewSender New "test" []).1 "test" [] [] [] []
      [true, false, true, false]).2 rfl
      (fun _ ho => absurd ho (List.not_mem_nil _))
      (fun _ ho => absurd ho (List.not_mem_nil _))).2⟩

end Delivery
